import Mathlib

namespace Pandora

/-! ## Definitions -/

/-!
Verification of the pandora log-parsing core (shallow embedding).

Bytes are modelled as natural numbers, byte buffers as `List Nat`,
machine-integer offsets as `Nat` (no overflow is reachable at the modelled
widths), and the SIMD compare masks as natural numbers read little-endian
(bit `i` of a window mask is set iff byte `i` of the window matches).
-/


/-! ## SIMD scanner: src/simd_scan.rs -/

/-- Loop body of `scan_region_scalar` (src/simd_scan.rs): walk the bytes of
`data` carrying the running index `i`; for every `\n` byte push
`base + i + 1` when that offset is strictly below `total`. -/
def scanScalarLoop : List Nat → Nat → Nat → Nat → List Nat → List Nat
  | [], _, _, _, ls => ls
  | b :: rest, i, base, total, ls =>
      scanScalarLoop rest (i + 1) base total
        (if b = 10 then
          (if base + i + 1 < total then ls ++ [base + i + 1] else ls)
         else ls)

/-- `scan_region_scalar` from src/simd_scan.rs. -/
def scan_region_scalar (data : List Nat) (globalBase total : Nat)
    (lineStarts : List Nat) : List Nat :=
  scanScalarLoop data 0 globalBase total lineStarts

/-- Reference semantics of a scan over `data` whose first byte sits at
absolute offset `pos`: the offsets one past each newline, kept below
`total`, in position order. -/
def nlStartsFrom : List Nat → Nat → Nat → List Nat
  | [], _, _ => []
  | b :: rest, pos, total =>
      (if b = 10 ∧ pos + 1 < total then [pos + 1] else []) ++
        nlStartsFrom rest (pos + 1) total

/-- The indices of the newline bytes of a buffer, in increasing order. -/
def newlinePositions : List Nat → List Nat
  | [] => []
  | b :: rest =>
      (if b = 10 then [0] else []) ++ (newlinePositions rest).map (· + 1)

/-- The scalar reference of claim C1: take the newline positions of
`data`, shift each one past the newline (adding the base offset), and keep
the offsets that are strictly below `total`. -/
def newlineStarts (data : List Nat) (base total : Nat) : List Nat :=
  ((newlinePositions data).map (fun p => base + p + 1)).filter
    (fun o => decide (o < total))


def cmpMask (t : Nat) : List Nat → Nat
  | [] => 0
  | b :: rest => (if b = t then 1 else 0) + 2 * cmpMask t rest

/-- `u64::trailing_zeros`, on the nonzero masks the loops feed it. -/
def ctz (m : Nat) : Nat :=
  if h : m = 0 then 0
  else if m % 2 = 1 then 0
  else ctz (m / 2) + 1
termination_by m
decreasing_by omega

/-- `u64::count_ones`. -/
def popcount (m : Nat) : Nat :=
  if h : m = 0 then 0 else m % 2 + popcount (m / 2)
termination_by m
decreasing_by omega


def extract_positions_from_mask (mask baseOffset total : Nat)
    (lineStarts : List Nat) : List Nat :=
  if h : mask = 0 then lineStarts
  else
    extract_positions_from_mask (mask &&& (mask - 1)) baseOffset total
      (if baseOffset + ctz mask + 1 < total
        then lineStarts ++ [baseOffset + ctz mask + 1] else lineStarts)
termination_by mask
decreasing_by
  have h1 : mask &&& (mask - 1) ≤ mask - 1 := Nat.and_le_right
  omega

/-- The set-bit positions of `m`, lowest first, by the same
`trailing_zeros` / clear-lowest-bit iteration. -/
def maskBits (m : Nat) : List Nat :=
  if h : m = 0 then [] else ctz m :: maskBits (m &&& (m - 1))
termination_by m
decreasing_by
  have h1 : m &&& (m - 1) ≤ m - 1 := Nat.and_le_right
  omega


def matchPositions (t : Nat) : List Nat → List Nat
  | [] => []
  | b :: rest =>
      (if b = t then [0] else []) ++ (matchPositions t rest).map (· + 1)


def window (data : List Nat) (offset k : Nat) : List Nat :=
  (data.drop offset).take k

/-- Residual scalar tail shared verbatim by both SIMD kernels
(`while offset < len { if data[offset] == \n { push } }`). -/
def scanTailScalar (data : List Nat) (offset base total : Nat)
    (ls : List Nat) : List Nat :=
  if h : offset < data.length then
    scanTailScalar data (offset + 1) base total
      (if data.getD offset 0 = 10 then
        (if base + offset + 1 < total then ls ++ [base + offset + 1] else ls)
       else ls)
  else ls
termination_by data.length - offset

/-- Second stage of `scan_region_avx512`: single 64-byte blocks while
`offset < len - 63`, then the scalar tail. -/
def scanAvx512Single (data : List Nat) (offset base total : Nat)
    (ls : List Nat) : List Nat :=
  if h : offset < (if 64 ≤ data.length then data.length - 63 else 0) then
    scanAvx512Single data (offset + 64) base total
      (extract_positions_from_mask (cmpMask 10 (window data offset 64))
        (base + offset) total ls)
  else scanTailScalar data offset base total ls
termination_by data.length - offset
decreasing_by
  simp_wf
  split at h <;> omega

/-- First stage of `scan_region_avx512`: 256-byte unrolled blocks (four
64-byte lane compares per iteration) while `offset < len - 255`. -/
def scanAvx512Unrolled (data : List Nat) (offset base total : Nat)
    (ls : List Nat) : List Nat :=
  if h : offset < (if 256 ≤ data.length then data.length - 255 else 0) then
    scanAvx512Unrolled data (offset + 256) base total
      (extract_positions_from_mask
        (cmpMask 10 (window data (offset + 192) 64)) (base + (offset + 192)) total
        (extract_positions_from_mask
          (cmpMask 10 (window data (offset + 128) 64)) (base + (offset + 128)) total
          (extract_positions_from_mask
            (cmpMask 10 (window data (offset + 64) 64)) (base + (offset + 64)) total
            (extract_positions_from_mask
              (cmpMask 10 (window data offset 64)) (base + offset) total ls))))
  else scanAvx512Single data offset base total ls
termination_by data.length - offset
decreasing_by
  simp_wf
  split at h <;> omega

/-- `scan_region_avx512` from src/simd_scan.rs. -/
def scan_region_avx512 (data : List Nat) (globalBase total : Nat)
    (ls : List Nat) : List Nat :=
  scanAvx512Unrolled data 0 globalBase total ls


def avx2_cmp_64 (data : List Nat) (offset : Nat) : Nat :=
  cmpMask 10 (window data offset 32) |||
    (cmpMask 10 (window data (offset + 32) 32) <<< 32)


def scanAvx2Ymm (data : List Nat) (offset base total : Nat)
    (ls : List Nat) : List Nat :=
  if h : offset < (if 32 ≤ data.length then data.length - 31 else 0) then
    scanAvx2Ymm data (offset + 32) base total
      (extract_positions_from_mask (cmpMask 10 (window data offset 32))
        (base + offset) total ls)
  else scanTailScalar data offset base total ls
termination_by data.length - offset
decreasing_by
  simp_wf
  split at h <;> omega

/-- Second stage of `scan_region_avx2`: composed 64-byte blocks while
`offset < len - 63`. -/
def scanAvx2Single (data : List Nat) (offset base total : Nat)
    (ls : List Nat) : List Nat :=
  if h : offset < (if 64 ≤ data.length then data.length - 63 else 0) then
    scanAvx2Single data (offset + 64) base total
      (extract_positions_from_mask (avx2_cmp_64 data offset)
        (base + offset) total ls)
  else scanAvx2Ymm data offset base total ls
termination_by data.length - offset
decreasing_by
  simp_wf
  split at h <;> omega

/-- First stage of `scan_region_avx2`: 256-byte unrolled blocks of four
composed 64-byte compares. -/
def scanAvx2Unrolled (data : List Nat) (offset base total : Nat)
    (ls : List Nat) : List Nat :=
  if h : offset < (if 256 ≤ data.length then data.length - 255 else 0) then
    scanAvx2Unrolled data (offset + 256) base total
      (extract_positions_from_mask (avx2_cmp_64 data (offset + 192))
        (base + (offset + 192)) total
        (extract_positions_from_mask (avx2_cmp_64 data (offset + 128))
          (base + (offset + 128)) total
          (extract_positions_from_mask (avx2_cmp_64 data (offset + 64))
            (base + (offset + 64)) total
            (extract_positions_from_mask (avx2_cmp_64 data offset)
              (base + offset) total ls))))
  else scanAvx2Single data offset base total ls
termination_by data.length - offset
decreasing_by
  simp_wf
  split at h <;> omega

/-- `scan_region_avx2` from src/simd_scan.rs. -/
def scan_region_avx2 (data : List Nat) (globalBase total : Nat)
    (ls : List Nat) : List Nat :=
  scanAvx2Unrolled data 0 globalBase total ls


def count_newlines_scalar (data : List Nat) : Nat :=
  data.countP (fun b => decide (b = 10))

/-- Scalar residual loop shared by both SIMD counters. -/
def countTailScalar (data : List Nat) (offset cnt : Nat) : Nat :=
  if h : offset < data.length then
    countTailScalar data (offset + 1)
      (if data.getD offset 0 = 10 then cnt + 1 else cnt)
  else cnt
termination_by data.length - offset

/-- Second stage of `count_newlines_avx512`: 64-byte popcounts. -/
def countAvx512Single (data : List Nat) (offset cnt : Nat) : Nat :=
  if h : offset < (if 64 ≤ data.length then data.length - 63 else 0) then
    countAvx512Single data (offset + 64)
      (cnt + popcount (cmpMask 10 (window data offset 64)))
  else countTailScalar data offset cnt
termination_by data.length - offset
decreasing_by
  simp_wf
  split at h <;> omega

/-- First stage of `count_newlines_avx512`: 256-byte unrolled popcounts. -/
def countAvx512Unrolled (data : List Nat) (offset cnt : Nat) : Nat :=
  if h : offset < (if 256 ≤ data.length then data.length - 255 else 0) then
    countAvx512Unrolled data (offset + 256)
      (cnt + (popcount (cmpMask 10 (window data offset 64)) +
        popcount (cmpMask 10 (window data (offset + 64) 64)) +
        popcount (cmpMask 10 (window data (offset + 128) 64)) +
        popcount (cmpMask 10 (window data (offset + 192) 64))))
  else countAvx512Single data offset cnt
termination_by data.length - offset
decreasing_by
  simp_wf
  split at h <;> omega

/-- `count_newlines_avx512` from src/simd_scan.rs. -/
def count_newlines_avx512 (data : List Nat) : Nat :=
  countAvx512Unrolled data 0 0

/-- Third stage of `count_newlines_avx2`: 32-byte popcounts. -/
def countAvx2Ymm (data : List Nat) (offset cnt : Nat) : Nat :=
  if h : offset < (if 32 ≤ data.length then data.length - 31 else 0) then
    countAvx2Ymm data (offset + 32)
      (cnt + popcount (cmpMask 10 (window data offset 32)))
  else countTailScalar data offset cnt
termination_by data.length - offset
decreasing_by
  simp_wf
  split at h <;> omega

/-- Second stage of `count_newlines_avx2`: composed 64-byte popcounts. -/
def countAvx2Single (data : List Nat) (offset cnt : Nat) : Nat :=
  if h : offset < (if 64 ≤ data.length then data.length - 63 else 0) then
    countAvx2Single data (offset + 64) (cnt + popcount (avx2_cmp_64 data offset))
  else countAvx2Ymm data offset cnt
termination_by data.length - offset
decreasing_by
  simp_wf
  split at h <;> omega

/-- First stage of `count_newlines_avx2`: 256-byte unrolled popcounts. -/
def countAvx2Unrolled (data : List Nat) (offset cnt : Nat) : Nat :=
  if h : offset < (if 256 ≤ data.length then data.length - 255 else 0) then
    countAvx2Unrolled data (offset + 256)
      (cnt + (popcount (avx2_cmp_64 data offset) +
        popcount (avx2_cmp_64 data (offset + 64)) +
        popcount (avx2_cmp_64 data (offset + 128)) +
        popcount (avx2_cmp_64 data (offset + 192))))
  else countAvx2Single data offset cnt
termination_by data.length - offset
decreasing_by
  simp_wf
  split at h <;> omega

/-- `count_newlines_avx2` from src/simd_scan.rs. -/
def count_newlines_avx2 (data : List Nat) : Nat :=
  countAvx2Unrolled data 0 0


inductive SimdCap
  | avx512
  | avx2
  | scalar

/-- `scan_region` from src/simd_scan.rs: dispatch to the widest supported
kernel. -/
def scan_region (cap : SimdCap) (data : List Nat) (globalBase total : Nat)
    (lineStarts : List Nat) : List Nat :=
  match cap with
  | SimdCap.avx512 => scan_region_avx512 data globalBase total lineStarts
  | SimdCap.avx2 => scan_region_avx2 data globalBase total lineStarts
  | SimdCap.scalar => scan_region_scalar data globalBase total lineStarts

/-- `count_newlines_in_region` from src/simd_scan.rs. -/
def count_newlines_in_region (cap : SimdCap) (data : List Nat) : Nat :=
  match cap with
  | SimdCap.avx512 => count_newlines_avx512 data
  | SimdCap.avx2 => count_newlines_avx2 data
  | SimdCap.scalar => count_newlines_scalar data


/-! ## Plain-text parser: src/parser.rs and src/data.rs -/

/-- `LogLevel` from src/data.rs. -/
inductive LogLevel
  | Debug
  | Info
  | Warn
  | Error
  | Fatal
  | Unknown
deriving DecidableEq

/-- `LogLevel::from_bytes` from src/data.rs: dispatch on the first byte and
the length. -/
def LogLevel.from_bytes (b : List Nat) : LogLevel :=
  if b.isEmpty then LogLevel.Unknown
  else
    match b.getD 0 0, b.length with
    | 68, 5 => LogLevel.Debug
    | 73, 4 => LogLevel.Info
    | 87, 4 => LogLevel.Warn
    | 69, 5 => LogLevel.Error
    | 70, 5 => LogLevel.Fatal
    | _, _ => LogLevel.Unknown

/-- Little-endian `u32` load of `b[off..off+4]` (`u32::from_le_bytes`). -/
def leU32 (b : List Nat) (off : Nat) : Nat :=
  b.getD off 0 + 256 * b.getD (off + 1) 0 + 65536 * b.getD (off + 2) 0 +
    16777216 * b.getD (off + 3) 0

/-- Little-endian `u16` load of `b[off..off+2]` (`u16::from_le_bytes`). -/
def leU16 (b : List Nat) (off : Nat) : Nat :=
  b.getD off 0 + 256 * b.getD (off + 1) 0

/-- `swar_parse_4` from src/parser.rs: wrapping-subtract `0x30303030` on a
`u32` and recombine the byte lanes with a mixed-radix dot product. -/
def swar_parse_4 (b : List Nat) (off : Nat) : Nat :=
  let digits := (leU32 b off + 4294967296 - 808464432) % 4294967296
  let d0 := digits % 256
  let d1 := (digits / 256) % 256
  let d2 := (digits / 65536) % 256
  let d3 := (digits / 16777216) % 256
  d0 * 1000 + d1 * 100 + d2 * 10 + d3

/-- `swar_parse_2` from src/parser.rs (`u16` lanes). -/
def swar_parse_2 (b : List Nat) (off : Nat) : Nat :=
  let digits := (leU16 b off + 65536 - 12336) % 65536
  let d0 := digits % 256
  let d1 := (digits / 256) % 256
  d0 * 10 + d1

/-- `swar_parse_hms` from src/parser.rs. -/
def swar_parse_hms (b : List Nat) (off : Nat) : Nat :=
  swar_parse_2 b off * 10000 + swar_parse_2 b (off + 3) * 100 +
    swar_parse_2 b (off + 6)

/-- `is_leap_year` from src/parser.rs (`i64` arithmetic). -/
def is_leap_year (y : Int) : Prop :=
  (y % 4 = 0 ∧ y % 100 ≠ 0) ∨ y % 400 = 0

instance (y : Int) : Decidable (is_leap_year y) := by
  unfold is_leap_year
  infer_instance

/-- `MONTH_DAYS` from src/parser.rs. -/
def MONTH_DAYS : List Nat :=
  [0, 31, 59, 90, 120, 151, 181, 212, 243, 273, 304, 334]

/-- `parse_timestamp_fast` from src/parser.rs.  The `i64` intermediate
values stay far inside the machine range, so they are modelled as `Int`;
the final `u64` cast clamps negatives to zero exactly as the source. -/
def parse_timestamp_fast (b : List Nat) : Nat :=
  if b.length < 20 then 0
  else
    let year : Int := (swar_parse_4 b 0 : Int)
    let month : Nat := swar_parse_2 b 5
    let day : Nat := swar_parse_2 b 8
    let hms : Nat := swar_parse_hms b 11
    let hour : Nat := hms / 10000
    let minute : Nat := (hms / 100) % 100
    let sec : Nat := hms % 100
    let days0 : Int := (year - 1970) * 365
    let days1 : Int :=
      if year > 1970 then
        days0 + (year - 1969) / 4 - (year - 1901) / 100 + (year - 1601) / 400
      else days0
    let days2 : Int :=
      if 1 ≤ month ∧ month ≤ 12 then
        days1 + (MONTH_DAYS.getD (month - 1) 0 : Int) +
          (if 2 < month ∧ is_leap_year year then 1 else 0)
      else days1
    let days3 : Int := days2 + (day : Int) - 1
    let totalSecs : Int :=
      days3 * 86400 + (hour : Int) * 3600 + (minute : Int) * 60 + (sec : Int)
    if totalSecs < 0 then 0 else totalSecs.toNat

/-- `memchr::memchr` over a suffix: index (relative to the whole line) of
the first byte `t` at or after `start`. -/
def findByteFrom (t : Nat) (line : List Nat) (start : Nat) : Option Nat :=
  ((line.drop start).findIdx? (fun b => b == t)).map (start + ·)

/-- `find_first_3_spaces` from src/parser.rs (the `usize::MAX` sentinel is
modelled as `none`). -/
def find_first_3_spaces (line : List Nat) :
    Option Nat × Option Nat × Option Nat :=
  match findByteFrom 32 line 0 with
  | none => (none, none, none)
  | some s1 =>
      match findByteFrom 32 line (s1 + 1) with
      | none => (some s1, none, none)
      | some s2 =>
          match findByteFrom 32 line (s2 + 1) with
          | none => (some s1, some s2, none)
          | some s3 => (some s1, some s2, some s3)

/-- The six per-record columns of `LogBatch` (src/data.rs) that
`parse_line` writes at one index. -/
structure PlainRecord where
  timestamp : Nat
  level : LogLevel
  component_offset : Nat
  component_len : Nat
  message_offset : Nat
  message_len : Nat
deriving DecidableEq

/-- The all-zero record `LogBatch::new` pre-fills every slot with. -/
def defaultPlainRecord : PlainRecord :=
  { timestamp := 0, level := LogLevel.Unknown, component_offset := 0,
    component_len := 0, message_offset := 0, message_len := 0 }

/-- The sub-slice `line[lo..hi]`. -/
def slice (line : List Nat) (lo hi : Nat) : List Nat :=
  (line.drop lo).take (hi - lo)

/-- `parse_line` from src/parser.rs: what it writes into the batch columns
at `index` for the given line. -/
def parse_line (line : List Nat) (base_offset : Nat) : PlainRecord :=
  let spaces := find_first_3_spaces line
  match spaces.1 with
  | none =>
      { timestamp := 0, level := LogLevel.Unknown,
        component_offset := base_offset, component_len := 0,
        message_offset := base_offset, message_len := line.length }
  | some space1 =>
      let ts := parse_timestamp_fast (line.take space1)
      let after_ts := space1 + 1
      match spaces.2.1 with
      | none =>
          { timestamp := ts, level := LogLevel.from_bytes (line.drop after_ts),
            component_offset := base_offset + line.length, component_len := 0,
            message_offset := base_offset + line.length, message_len := 0 }
      | some space2 =>
          let level := LogLevel.from_bytes (slice line after_ts space2)
          let after_level := space2 + 1
          match spaces.2.2 with
          | none =>
              { timestamp := ts, level := level,
                component_offset := base_offset + after_level,
                component_len := line.length - after_level,
                message_offset := base_offset + line.length, message_len := 0 }
          | some space3 =>
              let after_component := space3 + 1
              let msg_len :=
                if after_component < line.length then
                  line.length - after_component
                else 0
              { timestamp := ts, level := level,
                component_offset := base_offset + after_level,
                component_len := space3 - after_level,
                message_offset := base_offset + after_component,
                message_len := msg_len }

/-! ## Calendar reference for claim C5 -/

/-- The Gregorian leap rule of the spec,
`(y%4==0 && y%100!=0) || y%400==0`. -/
def gregorianLeap (y : Nat) : Prop :=
  (y % 4 = 0 ∧ y % 100 ≠ 0) ∨ y % 400 = 0

instance (y : Nat) : Decidable (gregorianLeap y) := by
  unfold gregorianLeap
  infer_instance

def daysInYear (y : Nat) : Nat := if gregorianLeap y then 366 else 365

/-- Days in the years `1970, 1971, …, 1970 + n - 1`. -/
def daysOfYearsSinceEpoch : Nat → Nat
  | 0 => 0
  | n + 1 => daysOfYearsSinceEpoch n + daysInYear (1970 + n)

/-- Length of calendar month `m` (1-based; 0 outside `1..12`). -/
def monthLength (leap : Prop) [Decidable leap] (m : Nat) : Nat :=
  match m with
  | 1 => 31
  | 2 => if leap then 29 else 28
  | 3 => 31
  | 4 => 30
  | 5 => 31
  | 6 => 30
  | 7 => 31
  | 8 => 31
  | 9 => 30
  | 10 => 31
  | 11 => 30
  | 12 => 31
  | _ => 0

/-- Days in the months strictly before month `m` of a year. -/
def monthPrefix (leap : Prop) [Decidable leap] : Nat → Nat
  | 0 => 0
  | m + 1 => monthPrefix leap m + monthLength leap m

/-- Days since 1970-01-01 of the civil date `(y, m, d)`. -/
def daysFromCivil (y m d : Nat) : Nat :=
  daysOfYearsSinceEpoch (y - 1970) + monthPrefix (gregorianLeap y) m + (d - 1)

/-- The spec's timestamp value:
`days*86400 + hh*3600 + mm*60 + ss`. -/
def epochSecondsSpec (y mo d hh mi ss : Nat) : Nat :=
  daysFromCivil y mo d * 86400 + hh * 3600 + mi * 60 + ss

/-- The four-digit number at offsets `off..off+3`. -/
def fourDigits (b : List Nat) (off : Nat) : Nat :=
  1000 * (b.getD off 0 - 48) + 100 * (b.getD (off + 1) 0 - 48) +
    10 * (b.getD (off + 2) 0 - 48) + (b.getD (off + 3) 0 - 48)

/-- The two-digit number at offsets `off`, `off+1`. -/
def twoDigits (b : List Nat) (off : Nat) : Nat :=
  10 * (b.getD off 0 - 48) + (b.getD (off + 1) 0 - 48)

/-- All digit positions of the fixed `YYYY-MM-DDTHH:MM:SSZ` shape hold
ASCII digits. -/
def tsDigitsOk (b : List Nat) : Prop :=
  ∀ i ∈ ([0, 1, 2, 3, 5, 6, 8, 9, 11, 12, 14, 15, 17, 18] : List Nat),
    48 ≤ b.getD i 0 ∧ b.getD i 0 ≤ 57

instance (b : List Nat) : Decidable (tsDigitsOk b) := by
  unfold tsDigitsOk
  infer_instance

/-! ## Well-known key classifier: src/structured.rs (`well_known`) -/

/-- `TIMESTAMP_NAMES` from src/structured.rs (byte strings). -/
def TIMESTAMP_NAMES : List (List Nat) :=
  [[116, 105, 109, 101, 115, 116, 97, 109, 112],
   [116, 105, 109, 101],
   [116, 115],
   [64, 116, 105, 109, 101, 115, 116, 97, 109, 112],
   [100, 97, 116, 101, 116, 105, 109, 101],
   [100, 97, 116, 101],
   [116],
   [99, 114, 101, 97, 116, 101, 100, 95, 97, 116],
   [108, 111, 103, 103, 101, 100, 95, 97, 116],
   [101, 118, 101, 110, 116, 95, 116, 105, 109, 101]]

/-- `LEVEL_NAMES` from src/structured.rs. -/
def LEVEL_NAMES : List (List Nat) :=
  [[108, 101, 118, 101, 108],
   [115, 101, 118, 101, 114, 105, 116, 121],
   [108, 118, 108],
   [108, 111, 103, 95, 108, 101, 118, 101, 108],
   [108, 111, 103, 108, 101, 118, 101, 108],
   [108, 111, 103, 46, 108, 101, 118, 101, 108],
   [112, 114, 105, 111, 114, 105, 116, 121],
   [115, 101, 118]]

/-- `MESSAGE_NAMES` from src/structured.rs. -/
def MESSAGE_NAMES : List (List Nat) :=
  [[109, 101, 115, 115, 97, 103, 101],
   [109, 115, 103],
   [116, 101, 120, 116],
   [98, 111, 100, 121],
   [108, 111, 103],
   [100, 101, 115, 99, 114, 105, 112, 116, 105, 111, 110],
   [99, 111, 110, 116, 101, 110, 116]]

/-- `COMPONENT_NAMES` from src/structured.rs. -/
def COMPONENT_NAMES : List (List Nat) :=
  [[99, 111, 109, 112, 111, 110, 101, 110, 116],
   [115, 111, 117, 114, 99, 101],
   [108, 111, 103, 103, 101, 114],
   [109, 111, 100, 117, 108, 101],
   [115, 101, 114, 118, 105, 99, 101],
   [99, 97, 108, 108, 101, 114],
   [110, 97, 109, 101],
   [108, 111, 103, 103, 101, 114, 95, 110, 97, 109, 101],
   [115, 117, 98, 115, 121, 115, 116, 101, 109],
   [116, 97, 103]]

/-- `WellKnownKind` from src/structured.rs. -/
inductive WellKnownKind
  | Timestamp
  | Level
  | Message
  | Component
  | Other
deriving DecidableEq

/-- `u8::to_ascii_lowercase`. -/
def toLowerByte (c : Nat) : Nat := if 65 ≤ c ∧ c ≤ 90 then c + 32 else c

/-- The body of `classify_key` after the copy-and-lowercase step: branch on
the first byte, then scan the candidate name lists in order (each Rust
`for name in NAMES / if lower == *name` loop is a membership test). -/
def classify_lower (lower : List Nat) : WellKnownKind :=
  match lower.head? with
  | none => WellKnownKind.Other
  | some c =>
      if c = 116 ∨ c = 64 ∨ c = 100 ∨ c = 99 ∨ c = 101 ∨ c = 108 then
        if lower ∈ TIMESTAMP_NAMES then WellKnownKind.Timestamp
        else if lower ∈ LEVEL_NAMES then WellKnownKind.Level
        else if lower ∈ MESSAGE_NAMES then WellKnownKind.Message
        else if lower ∈ COMPONENT_NAMES then WellKnownKind.Component
        else WellKnownKind.Other
      else if c = 109 then
        if lower ∈ MESSAGE_NAMES then WellKnownKind.Message
        else if lower ∈ COMPONENT_NAMES then WellKnownKind.Component
        else WellKnownKind.Other
      else if c = 115 then
        if lower ∈ LEVEL_NAMES then WellKnownKind.Level
        else if lower ∈ COMPONENT_NAMES then WellKnownKind.Component
        else WellKnownKind.Other
      else if c = 112 then
        if lower ∈ LEVEL_NAMES then WellKnownKind.Level
        else WellKnownKind.Other
      else if c = 98 ∨ c = 110 then
        if lower ∈ MESSAGE_NAMES then WellKnownKind.Message
        else if lower ∈ COMPONENT_NAMES then WellKnownKind.Component
        else WellKnownKind.Other
      else WellKnownKind.Other

/-- `classify_key` from src/structured.rs: lowercase the first
`min(len, 64)` bytes into the stack buffer, then dispatch. -/
def classify_key (key : List Nat) : WellKnownKind :=
  classify_lower ((key.take 64).map toLowerByte)

/-- The spec's description of the classifier: keys longer than 64 bytes
are `Other`; otherwise look the lowercased key up in the four canonical
vocabularies in order. -/
def classify_key_spec (key : List Nat) : WellKnownKind :=
  if 64 < key.length then WellKnownKind.Other
  else
    if key.map toLowerByte ∈ TIMESTAMP_NAMES then WellKnownKind.Timestamp
    else if key.map toLowerByte ∈ LEVEL_NAMES then WellKnownKind.Level
    else if key.map toLowerByte ∈ MESSAGE_NAMES then WellKnownKind.Message
    else if key.map toLowerByte ∈ COMPONENT_NAMES then WellKnownKind.Component
    else WellKnownKind.Other

/-! ## Structured batch: src/structured.rs -/

/-- `FieldRef` from src/structured.rs (`u64`/`u32` offsets as `Nat`). -/
structure FieldRef where
  key_offset : Nat
  key_len : Nat
  val_offset : Nat
  val_len : Nat
deriving DecidableEq

/-- `WellKnownFields` from src/structured.rs; `4294967295` is the
`u32::MAX` absent sentinel. -/
structure WellKnownFields where
  timestamp : Nat
  level : Nat
  message : Nat
  component : Nat
deriving DecidableEq

def wellKnownDefault : WellKnownFields :=
  { timestamp := 4294967295, level := 4294967295,
    message := 4294967295, component := 4294967295 }

/-- The columnar arrays of `StructuredBatch` (src/structured.rs); the
capacity hints and `data_ptr` do not affect the stored contents. -/
structure StructuredBatch where
  fields : List FieldRef
  field_starts : List Nat
  well_known : List WellKnownFields
  line_offsets : List Nat
  line_lens : List Nat
  len : Nat
deriving DecidableEq

/-- `StructuredBatch::with_capacity`: empty columns, `field_starts`
seeded with 0. -/
def StructuredBatch.empty : StructuredBatch :=
  { fields := [], field_starts := [0], well_known := [],
    line_offsets := [], line_lens := [], len := 0 }

def StructuredBatch.begin_record (b : StructuredBatch)
    (line_offset line_len : Nat) : StructuredBatch :=
  { b with line_offsets := b.line_offsets ++ [line_offset],
           line_lens := b.line_lens ++ [line_len],
           well_known := b.well_known ++ [wellKnownDefault],
           len := b.len + 1 }

def StructuredBatch.push_field (b : StructuredBatch) (f : FieldRef) :
    StructuredBatch :=
  { b with fields := b.fields ++ [f] }

def StructuredBatch.end_record (b : StructuredBatch) : StructuredBatch :=
  { b with field_starts := b.field_starts ++ [b.fields.length] }

/-- `Vec::last_mut` update used by the `set_well_known_*` setters. -/
def updateLast {α : Type} (f : α → α) : List α → List α
  | [] => []
  | [x] => [f x]
  | x :: y :: rest => x :: updateLast f (y :: rest)

def StructuredBatch.set_well_known_timestamp (b : StructuredBatch)
    (idx : Nat) : StructuredBatch :=
  { b with
    well_known := updateLast (fun wk => { wk with timestamp := idx }) b.well_known }

def StructuredBatch.set_well_known_level (b : StructuredBatch)
    (idx : Nat) : StructuredBatch :=
  { b with
    well_known := updateLast (fun wk => { wk with level := idx }) b.well_known }

def StructuredBatch.set_well_known_message (b : StructuredBatch)
    (idx : Nat) : StructuredBatch :=
  { b with
    well_known := updateLast (fun wk => { wk with message := idx }) b.well_known }

def StructuredBatch.set_well_known_component (b : StructuredBatch)
    (idx : Nat) : StructuredBatch :=
  { b with
    well_known := updateLast (fun wk => { wk with component := idx }) b.well_known }

/-- Shared helper of the json/logfmt/csv parsers: classify a key and mark
the current record's well-known slot. -/
def classify_and_set (key_bytes : List Nat) (field_idx : Nat)
    (batch : StructuredBatch) : StructuredBatch :=
  match classify_key key_bytes with
  | WellKnownKind.Timestamp => batch.set_well_known_timestamp field_idx
  | WellKnownKind.Level => batch.set_well_known_level field_idx
  | WellKnownKind.Message => batch.set_well_known_message field_idx
  | WellKnownKind.Component => batch.set_well_known_component field_idx
  | WellKnownKind.Other => batch

/-! ## Cursor-scan helpers shared by the parsers' byte loops -/

/-- `while i < len && p(line[i]) { i += 1 }`. -/
def skipWhileF (p : Nat → Bool) (line : List Nat) : Nat → Nat → Nat
  | 0, i => i
  | fuel + 1, i =>
      if i < line.length then
        (if p (line.getD i 0) then skipWhileF p line fuel (i + 1) else i)
      else i

def skipWhile (p : Nat → Bool) (line : List Nat) (i : Nat) : Nat :=
  skipWhileF p line (line.length + 1) i

/-- The quoted-string scan with the escape rule `\` skips one byte:
`while i < len && line[i] != QUOTE { if line[i] == BACKSLASH { i += 1 }
i += 1 }`; returns the index of the closing quote (or an index `≥ len`).
Used for JSON keys and string values and logfmt quoted values. -/
def scanQuotedF (line : List Nat) : Nat → Nat → Nat
  | 0, i => i
  | fuel + 1, i =>
      if i < line.length then
        if line.getD i 0 = 34 then i
        else if line.getD i 0 = 92 then scanQuotedF line fuel (i + 2)
        else scanQuotedF line fuel (i + 1)
      else i

def scanQuoted (line : List Nat) (i : Nat) : Nat :=
  scanQuotedF line (line.length + 1) i

/-- `memchr::memchr` over the whole buffer. -/
def memchr (t : Nat) (l : List Nat) : Option Nat :=
  l.findIdx? (fun b => b == t)

/-- `memchr::memrchr`: index of the last occurrence of `t`. -/
def memrchr (t : Nat) (l : List Nat) : Option Nat :=
  (l.reverse.findIdx? (fun b => b == t)).map (fun k => l.length - 1 - k)

/-! ## Logfmt parser: src/logfmt_parser.rs -/

/-- The token loop of `parse_logfmt_line`.  The cursor advances by at
least one byte per iteration, so `line.length + 1` units of fuel always
suffice; the fuel only discharges termination. -/
def logfmtLoop (line : List Nat) (base : Nat) :
    Nat → Nat → StructuredBatch → StructuredBatch
  | 0, _, batch => batch
  | fuel + 1, i, batch =>
      let len := line.length
      let i1 := skipWhile (fun b => b == 32) line i
      if i1 < len then
        let key_start := i1
        let key_end := skipWhile (fun b => b != 61 && b != 32) line i1
        if key_end < len ∧ line.getD key_end 0 = 61 then
          let i2 := key_end + 1
          let scan :=
            if i2 < len ∧ line.getD i2 0 = 34 then
              let vs := i2 + 1
              let ve := scanQuoted line vs
              (vs, ve, if ve < len then ve + 1 else ve)
            else
              let ve := skipWhile (fun b => b != 32) line i2
              (i2, ve, ve)
          let fieldIdx := batch.fields.length
          let batch2 := batch.push_field
            { key_offset := base + key_start, key_len := key_end - key_start,
              val_offset := base + scan.1, val_len := scan.2.1 - scan.1 }
          let batch3 := classify_and_set (slice line key_start key_end)
            fieldIdx batch2
          logfmtLoop line base fuel scan.2.2 batch3
        else
          let batch2 :=
            if key_start < key_end then
              let fieldIdx := batch.fields.length
              let b2 := batch.push_field
                { key_offset := base + key_start,
                  key_len := key_end - key_start,
                  val_offset := base + key_end, val_len := 0 }
              classify_and_set (slice line key_start key_end) fieldIdx b2
            else batch
          logfmtLoop line base fuel key_end batch2
      else batch

/-- `parse_logfmt_line` from src/logfmt_parser.rs. -/
def parse_logfmt_line (line : List Nat) (base_offset : Nat)
    (batch : StructuredBatch) : StructuredBatch :=
  if line.length = 0 then batch
  else
    ((logfmtLoop line base_offset (line.length + 1) 0
        (batch.begin_record base_offset line.length))).end_record

/-- The per-line start/end computation shared by
`parse_logfmt_lines_range` and `parse_json_lines_range` (strip one
trailing `\n` and a preceding `\r`).  The drivers run `i` below
`line_starts.len() - 1`, so the `i + 1 < num_lines` test is always true
and the `next`-based branch applies. -/
def lineEndCRLF (data : List Nat) (next : Nat) : Nat :=
  if 0 < next ∧ next ≤ data.length ∧ data.getD (next - 1) 0 = 10 then
    (if 1 < next ∧ data.getD (next - 2) 0 = 13 then next - 2 else next - 1)
  else next

/-- `parse_logfmt_lines_range` from src/logfmt_parser.rs. -/
def parse_logfmt_lines_range (data : List Nat) (lineStarts : List Nat)
    (startIdx endIdx : Nat) (batch : StructuredBatch) : StructuredBatch :=
  (List.range' startIdx (endIdx - startIdx)).foldl
    (fun b i =>
      let line_start := lineStarts.getD i 0
      let line_end :=
        if i + 1 < lineStarts.length then
          lineEndCRLF data (lineStarts.getD (i + 1) 0)
        else data.length
      if line_start ≥ data.length ∨ line_start ≥ line_end then b
      else
        let line := slice data line_start line_end
        if line.all (fun c => c == 32 || c == 9) then b
        else parse_logfmt_line line line_start b)
    batch

/-! ## JSON parser: src/json_parser.rs -/

def is_json_whitespace (b : Nat) : Bool :=
  b == 32 || b == 9 || b == 13 || b == 10

def is_json_value_terminator (b : Nat) : Bool :=
  b == 44 || b == 125 || b == 93 || is_json_whitespace b

/-- The bracket-depth loop of `parse_json_value` for `{…}` / `[…]`
values: every iteration advances the cursor, so `line.length + 1` fuel
always suffices.  `depth` is the `i32` nesting counter. -/
def jsonDepthLoop (line : List Nat) (openB closeB : Nat) :
    Nat → Nat → Int → Nat
  | 0, i, _ => i
  | fuel + 1, i, depth =>
      if i < line.length ∧ 0 < depth then
        let step :=
          if line.getD i 0 = openB then (i, depth + 1)
          else if line.getD i 0 = closeB then (i, depth - 1)
          else if line.getD i 0 = 34 then (scanQuoted line (i + 1), depth)
          else (i, depth)
        jsonDepthLoop line openB closeB fuel (step.1 + 1) step.2
      else i

/-- Trim trailing JSON whitespace from a bareword value range. -/
def trimWsBack (line : List Nat) (val_start : Nat) : Nat → Nat
  | 0 => 0
  | ve + 1 =>
      if val_start < ve + 1 ∧ is_json_whitespace (line.getD ve 0) then
        trimWsBack line val_start ve
      else ve + 1

/-- `parse_json_value` from src/json_parser.rs: returns
`(val_start, val_end, cursor after the value)`. -/
def parse_json_value (line : List Nat) (i : Nat) : Nat × Nat × Nat :=
  let len := line.length
  if i ≥ len then (i, i, i)
  else if line.getD i 0 = 34 then
    let vs := i + 1
    let ve := scanQuoted line vs
    (vs, ve, if ve < len then ve + 1 else ve)
  else if line.getD i 0 = 123 then
    let stop := jsonDepthLoop line 123 125 (len + 1) (i + 1) 1
    (i, stop, stop)
  else if line.getD i 0 = 91 then
    let stop := jsonDepthLoop line 91 93 (len + 1) (i + 1) 1
    (i, stop, stop)
  else
    let ve0 := skipWhile (fun b => !is_json_value_terminator b) line i
    (i, trimWsBack line i ve0, ve0)

/-- The object-member loop of `parse_json_line`; again `line.length + 1`
fuel always suffices. -/
def jsonLoop (line : List Nat) (base : Nat) :
    Nat → Nat → StructuredBatch → StructuredBatch
  | 0, _, batch => batch
  | fuel + 1, i, batch =>
      let len := line.length
      let i1 := skipWhile (fun b => is_json_whitespace b) line i
      if i1 ≥ len ∨ line.getD i1 0 = 125 then batch
      else if line.getD i1 0 = 44 then jsonLoop line base fuel (i1 + 1) batch
      else if line.getD i1 0 ≠ 34 then
        jsonLoop line base fuel
          (skipWhile (fun b => b != 44 && b != 125) line i1) batch
      else
        let key_start := i1 + 1
        let key_end := scanQuoted line key_start
        let i2 := if key_end < len then key_end + 1 else key_end
        let i3 := skipWhile (fun b => is_json_whitespace b) line i2
        let i4 := if i3 < len ∧ line.getD i3 0 = 58 then i3 + 1 else i3
        let i5 := skipWhile (fun b => is_json_whitespace b) line i4
        let v := parse_json_value line i5
        let fieldIdx := batch.fields.length
        let batch2 := batch.push_field
          { key_offset := base + key_start, key_len := key_end - key_start,
            val_offset := base + v.1, val_len := v.2.1 - v.1 }
        let batch3 := classify_and_set (slice line key_start key_end)
          fieldIdx batch2
        let i6 := skipWhile (fun b => is_json_whitespace b) line v.2.2
        let i7 := if i6 < len ∧ line.getD i6 0 = 44 then i6 + 1 else i6
        jsonLoop line base fuel i7 batch3

/-- `parse_json_line` from src/json_parser.rs. -/
def parse_json_line (line : List Nat) (base_offset : Nat)
    (batch : StructuredBatch) : StructuredBatch :=
  let len := line.length
  if len < 2 then batch
  else
    let i0 := skipWhile (fun b => b != 123) line 0
    if i0 ≥ len then batch
    else
      ((jsonLoop line base_offset (len + 1) (i0 + 1)
          (batch.begin_record base_offset len))).end_record

/-- `parse_json_lines_range` from src/json_parser.rs. -/
def parse_json_lines_range (data : List Nat) (lineStarts : List Nat)
    (startIdx endIdx : Nat) (batch : StructuredBatch) : StructuredBatch :=
  (List.range' startIdx (endIdx - startIdx)).foldl
    (fun b i =>
      let line_start := lineStarts.getD i 0
      let line_end :=
        if i + 1 < lineStarts.length then
          lineEndCRLF data (lineStarts.getD (i + 1) 0)
        else data.length
      if line_start ≥ data.length ∨ line_start ≥ line_end then b
      else
        let line := slice data line_start line_end
        if line.all (fun c => is_json_whitespace c) then b
        else parse_json_line line line_start b)
    batch

/-! ## CSV parser: src/csv_parser.rs -/

/-- The leading space/tab trim of `trim_csv_field`, on absolute index
range `[s, e)` of the underlying buffer. -/
def trimStart2F (data : List Nat) (e : Nat) : Nat → Nat → Nat
  | 0, s => s
  | fuel + 1, s =>
      if s < e ∧ (data.getD s 0 = 32 ∨ data.getD s 0 = 9) then
        trimStart2F data e fuel (s + 1)
      else s

def trimStart2 (data : List Nat) (e s : Nat) : Nat :=
  trimStart2F data e (e + 1) s

/-- The trailing space/tab trim of `trim_csv_field`. -/
def trimEnd2F (data : List Nat) (s : Nat) : Nat → Nat → Nat
  | 0, e => e
  | fuel + 1, e =>
      if s < e ∧ (data.getD (e - 1) 0 = 32 ∨ data.getD (e - 1) 0 = 9) then
        trimEnd2F data s fuel (e - 1)
      else e

def trimEnd2 (data : List Nat) (s e : Nat) : Nat :=
  trimEnd2F data s (e + 1) e

/-- `trim_csv_field` from src/csv_parser.rs, acting on the absolute index
range `[s, e)` of `data` (the Rust code trims a subslice and later recovers
the offset by pointer subtraction from `data`). -/
def trim_csv_field (data : List Nat) (s e : Nat) : Nat × Nat :=
  let s1 := trimStart2 data e s
  let e1 := trimEnd2 data s1 e
  if 2 ≤ e1 - s1 ∧ data.getD s1 0 = 34 ∧ data.getD (e1 - 1) 0 = 34 then
    (s1 + 1, e1 - 1)
  else (s1, e1)

/-- `header_line.split(a comma)` as a list of absolute `[start, stop)`
ranges of `data` restricted to `[0, lineEnd)`; fuel `lineEnd + 1` always
suffices because the cursor advances past each comma found. -/
def csvSegs (data : List Nat) (lineEnd : Nat) : Nat → Nat → List (Nat × Nat)
  | 0, pos => [(pos, lineEnd)]
  | fuel + 1, pos =>
      match findByteFrom 44 (data.take lineEnd) pos with
      | some j => (pos, j) :: csvSegs data lineEnd fuel (j + 1)
      | none => [(pos, lineEnd)]

structure CsvHeader where
  columns : List (Nat × Nat)
  well_known : List WellKnownKind
deriving DecidableEq

/-- `CsvHeader::parse` from src/csv_parser.rs.  The `key_offset` of each
column is the byte index of the (trimmed) header field INSIDE the `data`
argument given to this function, because the Rust code computes it as
`field.as_ptr().offset_from(data.as_ptr())`. -/
def CsvHeader.parse (data : List Nat) : Option CsvHeader :=
  let line_end0 := (memchr 10 data).getD data.length
  let line_end :=
    if 0 < line_end0 ∧ data.getD (line_end0 - 1) 0 = 13 then line_end0 - 1
    else line_end0
  if line_end = 0 then none
  else
    let segs := csvSegs data line_end (line_end + 1) 0
    some
      { columns := segs.map (fun sg =>
          let t := trim_csv_field data sg.1 sg.2
          (t.1, t.2 - t.1)),
        well_known := segs.map (fun sg =>
          let t := trim_csv_field data sg.1 sg.2
          classify_key (slice data t.1 t.2)) }

def CsvHeader.num_columns (h : CsvHeader) : Nat := h.columns.length

/-- The quoted-field scan of `parse_csv_field` starting just after the
opening quote at cursor `j`: returns `(val_end, new cursor)`. -/
def csvQuotedF (line : List Nat) : Nat → Nat → Nat × Nat
  | 0, j => (j, j)
  | fuel + 1, j =>
      if j < line.length then
        if line.getD j 0 = 34 then
          if j + 1 < line.length ∧ line.getD (j + 1) 0 = 34 then
            csvQuotedF line fuel (j + 2)
          else (j, j + 1)
        else csvQuotedF line fuel (j + 1)
      else (j, j)

def csvQuoted (line : List Nat) (j : Nat) : Nat × Nat :=
  csvQuotedF line (line.length + 1) j

/-- `parse_csv_field` from src/csv_parser.rs: returns
`(val_start, val_end, new cursor)`. -/
def parse_csv_field (line : List Nat) (i : Nat) : Nat × Nat × Nat :=
  if i ≥ line.length then (i, i, i)
  else if line.getD i 0 = 34 then
    let q := csvQuoted line (i + 1)
    (i + 1, q.1, q.2)
  else
    let e := skipWhile (fun b => b != 44 && b != 10 && b != 13) line i
    (i, e, e)

/-- The column loop of `parse_csv_line`; `fuel` is the number of header
columns not yet consumed, so the loop guard `col_idx < num_columns` is
`fuel ≠ 0`. -/
def csvLineLoop (line : List Nat) (base : Nat) (header : CsvHeader) :
    Nat → Nat → Nat → StructuredBatch → StructuredBatch
  | 0, _, _, batch => batch
  | fuel + 1, i, col_idx, batch =>
      if i < line.length then
        let f := parse_csv_field line i
        let fieldIdx := batch.fields.length
        let col := header.columns.getD col_idx (0, 0)
        let batch2 := batch.push_field
          { key_offset := col.1, key_len := col.2,
            val_offset := base + f.1, val_len := f.2.1 - f.1 }
        let batch3 :=
          match header.well_known.getD col_idx WellKnownKind.Other with
          | WellKnownKind.Timestamp => batch2.set_well_known_timestamp fieldIdx
          | WellKnownKind.Level => batch2.set_well_known_level fieldIdx
          | WellKnownKind.Message => batch2.set_well_known_message fieldIdx
          | WellKnownKind.Component => batch2.set_well_known_component fieldIdx
          | WellKnownKind.Other => batch2
        let i2 := f.2.2
        let i3 := if i2 < line.length ∧ line.getD i2 0 = 44 then i2 + 1 else i2
        csvLineLoop line base header fuel i3 (col_idx + 1) batch3
      else batch

/-- `parse_csv_line` from src/csv_parser.rs. -/
def parse_csv_line (line : List Nat) (base_offset : Nat) (header : CsvHeader)
    (batch : StructuredBatch) : StructuredBatch :=
  if line.length = 0 then batch
  else
    (csvLineLoop line base_offset header header.columns.length 0 0
        (batch.begin_record base_offset line.length)).end_record

/-- `parse_csv_lines_range` from src/csv_parser.rs.  Unlike the logfmt and
JSON ranges, the last line also strips a trailing CRLF from `data.len()`. -/
def parse_csv_lines_range (data : List Nat) (lineStarts : List Nat)
    (startIdx endIdx : Nat) (header : CsvHeader) (batch : StructuredBatch) :
    StructuredBatch :=
  (List.range' startIdx (endIdx - startIdx)).foldl
    (fun b i =>
      let line_start := lineStarts.getD i 0
      let line_end :=
        if i + 1 < lineStarts.length then
          lineEndCRLF data (lineStarts.getD (i + 1) 0)
        else
          let e0 := data.length
          let e1 := if 0 < e0 ∧ data.getD (e0 - 1) 0 = 10 then e0 - 1 else e0
          if 0 < e1 ∧ data.getD (e1 - 1) 0 = 13 then e1 - 1 else e1
      if line_start ≥ data.length ∨ line_start ≥ line_end then b
      else parse_csv_line (slice data line_start line_end) line_start header b)
    batch

/-- `header_end_offset` from src/csv_parser.rs. -/
def header_end_offset (data : List Nat) : Nat :=
  match memchr 10 data with
  | some pos => pos + 1
  | none => data.length

/-! ## Format detection: src/format.rs -/

inductive LogFormat
  | PlainText
  | Json
  | Logfmt
  | Csv
deriving DecidableEq

def LogFormat.as_str : LogFormat → String
  | LogFormat.PlainText => "plain-text"
  | LogFormat.Json => "json"
  | LogFormat.Logfmt => "logfmt"
  | LogFormat.Csv => "csv"

/-- `skip_whitespace_and_bom` from src/format.rs, returned as the index
where the trimmed slice starts. -/
def skip_whitespace_and_bom (data : List Nat) : Nat :=
  let i0 :=
    if 3 ≤ data.length ∧ data.getD 0 0 = 239 ∧ data.getD 1 0 = 187 ∧
        data.getD 2 0 = 191 then 3
    else 0
  skipWhile (fun b => b == 32 || b == 9 || b == 13 || b == 10) data i0

def is_logfmt_key_char (b : Nat) : Bool :=
  (48 ≤ b && b ≤ 57) || (65 ≤ b && b ≤ 90) || (97 ≤ b && b ≤ 122) ||
    b == 95 || b == 45 || b == 46

/-- The key-value counting loop of `detect_logfmt`.  Every iteration that
recurses advances the cursor by at least one byte, so `line.length + 1`
fuel always suffices. -/
def detectLogfmtLoop (line : List Nat) : Nat → Nat → Nat → Bool
  | 0, _, _ => false
  | fuel + 1, i, kv =>
      if i < line.length then
        let i1 := skipWhile (fun b => b == 32) line i
        let key_start := i1
        let i2 := skipWhile is_logfmt_key_char line i1
        if i2 = key_start ∨ i2 ≥ line.length ∨ line.getD i2 0 ≠ 61 then
          detectLogfmtLoop line fuel (skipWhile (fun b => b != 32) line i2) kv
        else
          let i3 := i2 + 1
          let i4 :=
            if i3 < line.length ∧ line.getD i3 0 = 34 then
              let q := scanQuoted line (i3 + 1)
              if q < line.length then q + 1 else q
            else skipWhile (fun b => b != 32) line i3
          if kv + 1 ≥ 2 then true
          else detectLogfmtLoop line fuel i4 (kv + 1)
      else false

/-- `detect_logfmt` from src/format.rs. -/
def detect_logfmt (line : List Nat) : Bool :=
  detectLogfmtLoop line (line.length + 1) 0 0

def is_ascii_alphabetic (b : Nat) : Bool :=
  (65 ≤ b && b ≤ 90) || (97 ≤ b && b ≤ 122)

/-- `detect_csv` from src/format.rs. -/
def detect_csv (first_line all_data : List Nat) : Bool :=
  let comma_count := first_line.countP (fun b => b == 44)
  if comma_count < 2 then false
  else
    let alpha_count :=
      first_line.countP (fun b => is_ascii_alphabetic b || b == 95)
    if alpha_count < first_line.length / 3 then false
    else if first_line.length < all_data.length then
      let rest := all_data.drop first_line.length
      let start? : Option Nat :=
        if rest.length ≠ 0 ∧ rest.getD 0 0 = 10 then some 1
        else if 2 ≤ rest.length ∧ rest.getD 0 0 = 13 ∧ rest.getD 1 0 = 10 then
          some 2
        else none
      match start? with
      | none => false
      | some st =>
          let after := rest.drop st
          let second_end := (memchr 10 after).getD after.length
          (after.take second_end).countP (fun b => b == 44) = comma_count
    else false

/-- `LogFormat::detect` from src/format.rs. -/
def LogFormat.detect (data : List Nat) : LogFormat :=
  let trimmed := data.drop (skip_whitespace_and_bom data)
  if trimmed.length = 0 then LogFormat.PlainText
  else if trimmed.getD 0 0 = 123 then LogFormat.Json
  else if trimmed.getD 0 0 = 91 ∧ 1 < trimmed.length ∧
      (let inner :=
        (trimmed.drop 1).drop (skip_whitespace_and_bom (trimmed.drop 1))
       inner.length ≠ 0 ∧ inner.getD 0 0 = 123) then LogFormat.Json
  else
    let first_line_end := (memchr 10 trimmed).getD trimmed.length
    let first_line := trimmed.take first_line_end
    if detect_logfmt first_line then LogFormat.Logfmt
    else if detect_csv first_line trimmed then LogFormat.Csv
    else LogFormat.PlainText

/-! ## Plain orchestrator: src/orchestrator.rs -/

/-- `LogBatch` from src/data.rs, reduced to its parse-relevant content:
the per-line record columns and the `len` counter.  `LogBatch::new` sets
`len` to the capacity and zero-fills every column. -/
structure LogBatch where
  records : List PlainRecord
  len : Nat
deriving DecidableEq

def LogBatch.new (capacity : Nat) : LogBatch :=
  { records := List.replicate capacity defaultPlainRecord, len := capacity }

/-- `parse_lines_range` from src/parser.rs: writes `parse_line`'s output
into slot `i` for each line index in `[startIdx, endIdx)`, skipping lines
that are empty or start past the end of the buffer. -/
def parse_lines_range (data : List Nat) (lineStarts : List Nat)
    (startIdx endIdx : Nat) (records : List PlainRecord) : List PlainRecord :=
  (List.range' startIdx (endIdx - startIdx)).foldl
    (fun rs i =>
      let line_start := lineStarts.getD i 0
      let line_end :=
        if i + 1 < lineStarts.length then
          let next := lineStarts.getD (i + 1) 0
          if 0 < next ∧ next ≤ data.length ∧ data.getD (next - 1) 0 = 10 then
            next - 1
          else next
        else data.length
      if line_start ≥ data.length ∨ line_start ≥ line_end then rs
      else rs.set i (parse_line (slice data line_start line_end) line_start))
    records

/-- `parse_chunk` from src/orchestrator.rs (timing elided). -/
def parse_chunk (cap : SimdCap) (data : List Nat) (start stop : Nat) :
    LogBatch :=
  let chunk := slice data start stop
  let line_starts := scan_region cap chunk start data.length [start] ++ [stop]
  let num_lines := line_starts.length - 1
  let batch := LogBatch.new num_lines
  { batch with
    records := parse_lines_range data line_starts 0 num_lines batch.records }

/-- The chunk-boundary loop of `parse_logs_pipelined` (and of
`parse_format_mmap`, which is byte-identical): each found newline ends a
chunk, and the cursor jumps `chunkSize` past it.  The cursor strictly
increases, so `data.length + 1` fuel always suffices. -/
def boundariesLoop (data : List Nat) (chunkSize : Nat) :
    Nat → Nat → List Nat
  | 0, _ => []
  | fuel + 1, pos =>
      if pos < data.length then
        match findByteFrom 10 data pos with
        | some j => (j + 1) :: boundariesLoop data chunkSize fuel (j + 1 + chunkSize)
        | none => []
      else []

/-- The boundary vector `[0, b₁, …, data.len()]` both orchestrators build. -/
def chunkBoundaries (data : List Nat) (chunkSize : Nat) : List Nat :=
  (0 :: boundariesLoop data chunkSize (data.length + 1) chunkSize) ++
    [data.length]

/-- The contiguous chunk-index range worker `w` of `workers` receives:
`[⌊w·C/W⌋, ⌊(w+1)·C/W⌋)`. -/
def assignmentsFor (numChunks workers w : Nat) : List Nat :=
  List.range' ((w * numChunks) / workers)
    (((w + 1) * numChunks) / workers - (w * numChunks) / workers)

/-- The worker / reassembly phase shared by `parse_logs_pipelined` and
`parse_format_mmap`: every worker parses its assigned chunks, each result
is stored at its chunk index in `ordered_batches`, and the `Some` entries
are collected in index order. -/
def mmapAssemble {β : Type} (parseAt : Nat → β) (numChunks workers : Nat) :
    List β :=
  let ordered :=
    (List.range workers).foldl
      (fun ord w =>
        (assignmentsFor numChunks workers w).foldl
          (fun o i => o.set i (some (parseAt i))) ord)
      (List.replicate numChunks (none : Option β))
  ordered.filterMap id

structure PipelineResult where
  batches : List LogBatch
  total_lines : Nat
deriving DecidableEq

/-- `parse_logs_pipelined` from src/orchestrator.rs.  `chunkSize` is the
`PANDORA_CHUNK_MB` derived chunk size (64 MiB by default). -/
def parse_logs_pipelined (cap : SimdCap) (data : List Nat)
    (numThreads chunkSize : Nat) : PipelineResult :=
  if data.length = 0 then { batches := [], total_lines := 0 }
  else
    let boundaries := chunkBoundaries data chunkSize
    let num_chunks := boundaries.length - 1
    let worker_threads := min (max numThreads 1) (max num_chunks 1)
    let parseAt := fun i =>
      parse_chunk cap data (boundaries.getD i 0) (boundaries.getD (i + 1) 0)
    let batches :=
      if worker_threads = 1 ∨ num_chunks ≤ 1 then
        (List.range num_chunks).map parseAt
      else mmapAssemble parseAt num_chunks worker_threads
    { batches := batches, total_lines := (batches.map LogBatch.len).sum }

/-- `parse_owned_chunk` from src/orchestrator.rs: `parse_chunk` over a
whole owned buffer. -/
def parse_owned_chunk (cap : SimdCap) (data : List Nat) : LogBatch :=
  let line_starts := scan_region cap data 0 data.length [0] ++ [data.length]
  let num_lines := line_starts.length - 1
  let batch := LogBatch.new num_lines
  { batch with
    records := parse_lines_range data line_starts 0 num_lines batch.records }

/-- The segment loop of `parse_logs_streamed`, with the file modelled as
the byte list still unread.  Each pass reads `min segmentSize remaining`
bytes; `remaining.length + 2` fuel always suffices because every recursive
call consumes at least one unread byte, except the final leftover flush
at end of file, which happens at most once.  Returns the retained batches
and the accumulated `total_lines`.  A parsed batch is pushed onto
`result_batches` ONLY when that vector is still empty. -/
def streamLoop (cap : SimdCap) (segmentSize : Nat) :
    Nat → List Nat → List Nat → List LogBatch → Nat → List LogBatch × Nat
  | 0, _, _, batches, total => (batches, total)
  | fuel + 1, remaining, leftover, batches, total =>
      let bytes_read := min segmentSize remaining.length
      let at_eof := bytes_read < segmentSize
      if leftover.length = 0 ∧ bytes_read = 0 then (batches, total)
      else
        let work_buf := leftover ++ remaining.take bytes_read
        let remaining2 := remaining.drop bytes_read
        match (if at_eof then some work_buf.length
               else (memrchr 10 work_buf).map (· + 1)) with
        | none =>
            streamLoop cap segmentSize fuel remaining2 work_buf batches total
        | some complete_end =>
            let leftover2 :=
              if complete_end < work_buf.length then work_buf.drop complete_end
              else []
            let work := work_buf.take complete_end
            if work.length = 0 then
              if at_eof then (batches, total)
              else streamLoop cap segmentSize fuel remaining2 leftover2 batches
                total
            else
              let batch := parse_owned_chunk cap work
              streamLoop cap segmentSize fuel remaining2 leftover2
                (if batches.isEmpty then [batch] else batches)
                (total + batch.len)

/-- `parse_logs_streamed` from src/orchestrator.rs, with the file contents
given as `fileData` and the `PANDORA_CHUNK_MB` derived segment size as
`segmentSize`. -/
def parse_logs_streamed (cap : SimdCap) (fileData : List Nat)
    (segmentSize : Nat) : PipelineResult :=
  if fileData.length = 0 then { batches := [], total_lines := 0 }
  else
    let r := streamLoop cap segmentSize (fileData.length + 2) fileData [] [] 0
    { batches := r.1, total_lines := r.2 }

/-! ## Structured orchestrator: src/structured_orchestrator.rs -/

structure StructuredPipelineResult where
  batches : List StructuredBatch
  total_records : Nat
  total_fields : Nat
  format : LogFormat
deriving DecidableEq

/-- `parse_structured_chunk` from src/structured_orchestrator.rs (timing
elided; the batch starts from `StructuredBatch.empty`). -/
def parse_structured_chunk (cap : SimdCap) (data : List Nat)
    (start stop : Nat) (format : LogFormat) (csv_header : Option CsvHeader) :
    StructuredBatch :=
  let chunk := slice data start stop
  let line_starts := scan_region cap chunk start data.length [start] ++ [stop]
  let num_lines := line_starts.length - 1
  let batch := StructuredBatch.empty
  match format with
  | LogFormat.Json => parse_json_lines_range data line_starts 0 num_lines batch
  | LogFormat.Logfmt =>
      parse_logfmt_lines_range data line_starts 0 num_lines batch
  | LogFormat.PlainText =>
      parse_logfmt_lines_range data line_starts 0 num_lines batch
  | LogFormat.Csv =>
      match csv_header with
      | some header =>
          parse_csv_lines_range data line_starts 0 num_lines header batch
      | none => batch

/-- `parse_format_mmap` from src/structured_orchestrator.rs: the chunking,
worker partition and reassembly are byte-identical to
`parse_logs_pipelined`. -/
def parse_format_mmap (cap : SimdCap) (data : List Nat)
    (numThreads chunkSize : Nat) (format : LogFormat)
    (csv_header : Option CsvHeader) : StructuredPipelineResult :=
  if data.length = 0 then
    { batches := [], total_records := 0, total_fields := 0, format := format }
  else
    let boundaries := chunkBoundaries data chunkSize
    let num_chunks := boundaries.length - 1
    let worker_threads := min (max numThreads 1) (max num_chunks 1)
    let parseAt := fun i =>
      parse_structured_chunk cap data (boundaries.getD i 0)
        (boundaries.getD (i + 1) 0) format csv_header
    let batches :=
      if worker_threads = 1 ∨ num_chunks ≤ 1 then
        (List.range num_chunks).map parseAt
      else mmapAssemble parseAt num_chunks worker_threads
    { batches := batches,
      total_records := (batches.map StructuredBatch.len).sum,
      total_fields := (batches.map (fun b => b.fields.length)).sum,
      format := format }

def parse_json_mmap (cap : SimdCap) (data : List Nat)
    (numThreads chunkSize : Nat) : StructuredPipelineResult :=
  parse_format_mmap cap data numThreads chunkSize LogFormat.Json none

def parse_logfmt_mmap (cap : SimdCap) (data : List Nat)
    (numThreads chunkSize : Nat) : StructuredPipelineResult :=
  parse_format_mmap cap data numThreads chunkSize LogFormat.Logfmt none

/-- `parse_csv_mmap` from src/structured_orchestrator.rs.  The header is
parsed from the FULL buffer (so its column key offsets index into `data`),
but the body `data[data_start..]` is what `parse_format_mmap` receives and
what the resulting batches' `data_ptr` points at. -/
def parse_csv_mmap (cap : SimdCap) (data : List Nat)
    (numThreads chunkSize : Nat) : StructuredPipelineResult :=
  let csv_header := CsvHeader.parse data
  let data_start := header_end_offset data
  if data_start ≥ data.length then
    { batches := [], total_records := 0, total_fields := 0,
      format := LogFormat.Csv }
  else
    let body := data.drop data_start
    let r := parse_format_mmap cap body numThreads chunkSize LogFormat.Csv
      csv_header
    { r with format := LogFormat.Csv }

/-- `parse_structured_mmap` from src/structured_orchestrator.rs. -/
def parse_structured_mmap (cap : SimdCap) (data : List Nat)
    (numThreads chunkSize : Nat) (format_hint : Option LogFormat) :
    StructuredPipelineResult :=
  if data.length = 0 then
    { batches := [], total_records := 0, total_fields := 0,
      format := LogFormat.PlainText }
  else
    match format_hint.getD (LogFormat.detect data) with
    | LogFormat.Json => parse_json_mmap cap data numThreads chunkSize
    | LogFormat.Logfmt => parse_logfmt_mmap cap data numThreads chunkSize
    | LogFormat.Csv => parse_csv_mmap cap data numThreads chunkSize
    | LogFormat.PlainText => parse_logfmt_mmap cap data numThreads chunkSize

/-- `field_key` / `field_value` from src/structured.rs read
`key_len` / `val_len` bytes at `key_offset` / `val_offset` from the batch's
`data_ptr` buffer. -/
def field_key (buffer : List Nat) (f : FieldRef) : List Nat :=
  slice buffer f.key_offset (f.key_offset + f.key_len)

def field_value (buffer : List Nat) (f : FieldRef) : List Nat :=
  slice buffer f.val_offset (f.val_offset + f.val_len)

/-! ## Line-count reference for claim C2 -/

/-- The lines of a buffer, split at every newline byte; a trailing newline
closes the last line without opening a new empty one, and a final line
with no trailing newline counts. -/
def linesOf : List Nat → List (List Nat)
  | [] => []
  | b :: rest =>
      if b = 10 then [] :: linesOf rest
      else
        match linesOf rest with
        | [] => [[b]]
        | l :: ls => (b :: l) :: ls

/-- Sum of `f` over the consecutive pairs of a list (the per-chunk
quantities of an orchestrator run over its boundary vector). -/
def pairSum (f : Nat → Nat → Nat) : List Nat → Nat
  | [] => 0
  | [_] => 0
  | a :: b :: rest => f a b + pairSum f (b :: rest)

/-! ## Theorems -/
theorem mem_newlinePositions (data : List Nat) :
    ∀ p, p ∈ newlinePositions data ↔ p < data.length ∧ data.getD p 0 = 10 := by
  induction data with
  | nil => intro p; simp [newlinePositions]
  | cons b rest ih =>
      intro p
      rw [newlinePositions]
      cases p with
      | zero => by_cases hb : b = 10 <;> simp [hb, List.getD]
      | succ q =>
          have hq := ih q
          by_cases hb : b = 10 <;>
            simp [hb, List.getD, hq, Nat.succ_lt_succ_iff]


theorem scanScalarLoop_eq (data : List Nat) :
    ∀ i base total ls, scanScalarLoop data i base total ls =
      ls ++ nlStartsFrom data (base + i) total := by
  induction data with
  | nil => intro i base total ls; simp [scanScalarLoop, nlStartsFrom]
  | cons b rest ih =>
      intro i base total ls
      rw [scanScalarLoop, ih, nlStartsFrom, ← Nat.add_assoc]
      by_cases hb : b = 10 <;> by_cases hlt : base + i + 1 < total <;>
        simp [hb, hlt]


theorem scan_region_scalar_eq (data : List Nat) (base total : Nat)
    (ls : List Nat) :
    scan_region_scalar data base total ls = ls ++ nlStartsFrom data base total := by
  rw [scan_region_scalar, scanScalarLoop_eq, Nat.add_zero]


theorem nlStartsFrom_eq_newlineStarts (data : List Nat) :
    ∀ base total, nlStartsFrom data base total = newlineStarts data base total := by
  induction data with
  | nil => intro base total; simp [nlStartsFrom, newlineStarts, newlinePositions]
  | cons b rest ih =>
      intro base total
      rw [nlStartsFrom, ih]
      unfold newlineStarts
      rw [newlinePositions]
      rw [List.map_append, List.filter_append, List.map_map]
      have hcomp :
          ((fun p => base + p + 1) ∘ (· + 1)) = (fun p => base + 1 + p + 1) := by
        funext p; simp [Function.comp]; omega
      rw [hcomp]
      by_cases hb : b = 10 <;> by_cases hlt : base + 1 < total <;>
        simp [hb, hlt]

/-! ### Compare masks and the bit-iteration loop

A 64-byte lane compare (`_mm512_cmpeq_epi8_mask`, or the composed
`movemask` pairs of the AVX-2 kernel) yields a mask whose bit `i` is set
iff byte `i` of the window equals the searched byte.  The kernels then
walk the set bits with `trailing_zeros` and `m &= m - 1`. -/

/-- Mask of the positions of `w` holding byte `t`, bit `i` set iff
`w[i] = t` (little endian), as produced by the SIMD compare + movemask. -/
theorem and_pred_lt (m : Nat) (h : m ≠ 0) : m &&& (m - 1) < m := by
  have h1 : m &&& (m - 1) ≤ m - 1 := Nat.and_le_right
  omega

/-- `extract_positions_from_mask` from src/simd_scan.rs: iterate the set
bits of `mask` from lowest to highest, pushing `base + pos + 1` when it is
below `total`. -/
theorem ctz_two_mul_add_one (m : Nat) : ctz (2 * m + 1) = 0 := by
  rw [ctz]
  simp [Nat.mul_add_mod]


theorem ctz_two_mul (m : Nat) (h : m ≠ 0) : ctz (2 * m) = ctz m + 1 := by
  rw [ctz]
  have h0 : ¬(2 * m = 0) := by omega
  have h1 : ¬(2 * m % 2 = 1) := by omega
  simp [h0, h1, Nat.mul_div_cancel_left m (by norm_num : 0 < 2)]


theorem bit_false_eq (x : Nat) : Nat.bit false x = 2 * x := by
  simp [Nat.bit]


theorem bit_true_eq (x : Nat) : Nat.bit true x = 2 * x + 1 := by
  simp [Nat.bit]


theorem and_two_mul_pred (m : Nat) (h : m ≠ 0) :
    (2 * m) &&& (2 * m - 1) = 2 * (m &&& (m - 1)) := by
  have h2 : 2 * m - 1 = 2 * (m - 1) + 1 := by omega
  rw [h2, ← bit_false_eq m, ← bit_true_eq (m - 1), Nat.land_bit]
  simp [bit_false_eq]


theorem and_two_mul_add_one_pred (m : Nat) :
    (2 * m + 1) &&& (2 * m) = 2 * m := by
  rw [← bit_true_eq m, ← bit_false_eq m, Nat.land_bit]
  simp [bit_false_eq, Nat.and_self]


theorem maskBits_zero : maskBits 0 = [] := by rw [maskBits]; simp


theorem maskBits_two_mul (m : Nat) :
    maskBits (2 * m) = (maskBits m).map (· + 1) := by
  induction m using Nat.strong_induction_on with
  | _ m ih =>
      by_cases h : m = 0
      · subst h; simp [maskBits_zero]
      · rw [maskBits]
        have h0 : ¬(2 * m = 0) := by omega
        simp only [h0, dite_false]
        rw [ctz_two_mul m h, and_two_mul_pred m h,
          ih (m &&& (m - 1)) (and_pred_lt m h)]
        conv_rhs => rw [maskBits]
        simp [h]


theorem maskBits_two_mul_add_one (m : Nat) :
    maskBits (2 * m + 1) = 0 :: (maskBits m).map (· + 1) := by
  rw [maskBits]
  have h0 : ¬(2 * m + 1 = 0) := by omega
  simp only [h0, dite_false]
  have h1 : 2 * m + 1 - 1 = 2 * m := by omega
  rw [ctz_two_mul_add_one, h1, and_two_mul_add_one_pred, maskBits_two_mul]


theorem extract_positions_eq (mask : Nat) :
    ∀ base total ls, extract_positions_from_mask mask base total ls =
      ls ++ ((maskBits mask).map (fun p => base + p + 1)).filter
        (fun o => decide (o < total)) := by
  induction mask using Nat.strong_induction_on with
  | _ mask ih =>
      intro base total ls
      by_cases h : mask = 0
      · subst h
        rw [extract_positions_from_mask, maskBits_zero]
        simp
      · rw [extract_positions_from_mask, maskBits]
        simp only [h, dite_false]
        rw [ih (mask &&& (mask - 1)) (and_pred_lt mask h)]
        by_cases hlt : base + ctz mask + 1 < total <;> simp [hlt]

/-- Positions of byte `t` inside `w`, in increasing order. -/
theorem newlinePositions_eq_matchPositions (w : List Nat) :
    newlinePositions w = matchPositions 10 w := by
  induction w with
  | nil => rfl
  | cons b rest ih => rw [newlinePositions, matchPositions, ih]


theorem maskBits_cmpMask (t : Nat) (w : List Nat) :
    maskBits (cmpMask t w) = matchPositions t w := by
  induction w with
  | nil => simp [cmpMask, maskBits_zero, matchPositions]
  | cons b rest ih =>
      rw [cmpMask, matchPositions]
      by_cases hb : b = t
      · subst hb
        simp only [eq_self_iff_true, if_true]
        rw [Nat.add_comm 1 (2 * cmpMask b rest), maskBits_two_mul_add_one, ih]
        simp
      · simp only [if_neg hb, Nat.zero_add]
        rw [maskBits_two_mul, ih]
        simp

/-- Reading out one full window mask reproduces the scalar scan of that
window. -/
theorem extract_cmpMask_eq_nlStartsFrom (w : List Nat) (base total : Nat)
    (ls : List Nat) :
    extract_positions_from_mask (cmpMask 10 w) base total ls =
      ls ++ nlStartsFrom w base total := by
  rw [extract_positions_eq, maskBits_cmpMask,
    ← newlinePositions_eq_matchPositions, nlStartsFrom_eq_newlineStarts,
    newlineStarts]


theorem nlStartsFrom_append (w1 w2 : List Nat) :
    ∀ pos total, nlStartsFrom (w1 ++ w2) pos total =
      nlStartsFrom w1 pos total ++ nlStartsFrom w2 (pos + w1.length) total := by
  induction w1 with
  | nil => intro pos total; simp [nlStartsFrom]
  | cons b rest ih =>
      intro pos total
      rw [List.cons_append, nlStartsFrom, nlStartsFrom, ih]
      simp only [List.length_cons, List.append_assoc]
      have : pos + 1 + rest.length = pos + (rest.length + 1) := by omega
      rw [this]

/-! ### The AVX-512 kernel (`scan_region_avx512`) -/

/-- The `k`-byte window loaded at `offset` (all SIMD loads of the kernels
are issued only when `offset + k ≤ data.length`). -/
theorem window_append (data : List Nat) (offset k : Nat)
    (h : offset + k ≤ data.length) :
    data.drop offset = window data offset k ++ data.drop (offset + k) := by
  have h2 : List.drop (offset + k) data = List.drop k (List.drop offset data) := by
    rw [List.drop_drop, Nat.add_comm]
  rw [window, h2, List.take_append_drop]


theorem window_length (data : List Nat) (offset k : Nat)
    (h : offset + k ≤ data.length) :
    (window data offset k).length = k := by
  rw [window, List.length_take, List.length_drop]
  omega


theorem scanTailScalar_eq (data : List Nat) :
    ∀ offset base total ls, scanTailScalar data offset base total ls =
      ls ++ nlStartsFrom (data.drop offset) (base + offset) total := by
  suffices main : ∀ n offset, data.length - offset = n →
      ∀ base total ls, scanTailScalar data offset base total ls =
        ls ++ nlStartsFrom (data.drop offset) (base + offset) total by
    intro offset; exact main (data.length - offset) offset rfl
  intro n
  induction n using Nat.strong_induction_on with
  | _ n ih =>
      intro offset hn base total ls
      rw [scanTailScalar]
      by_cases h : offset < data.length
      · have hdrop : data.drop offset =
            data.getD offset 0 :: data.drop (offset + 1) := by
          rw [List.getD_eq_getElem data 0 h, List.drop_eq_getElem_cons h]
        simp only [h, dite_true]
        rw [ih (data.length - (offset + 1)) (by omega) (offset + 1) rfl]
        rw [hdrop, nlStartsFrom]
        by_cases hb : data[offset]?.getD 0 = 10 <;>
          by_cases hlt : base + (offset + 1) < total <;>
            simp [List.getD, hb, hlt, Nat.add_assoc]
      · simp only [h, dite_false]
        rw [List.drop_eq_nil_of_le (by omega), nlStartsFrom]
        simp


theorem scanAvx512Single_eq (data : List Nat) :
    ∀ offset base total ls, scanAvx512Single data offset base total ls =
      ls ++ nlStartsFrom (data.drop offset) (base + offset) total := by
  suffices main : ∀ n offset, data.length - offset = n →
      ∀ base total ls, scanAvx512Single data offset base total ls =
        ls ++ nlStartsFrom (data.drop offset) (base + offset) total by
    intro offset; exact main (data.length - offset) offset rfl
  intro n
  induction n using Nat.strong_induction_on with
  | _ n ih =>
      intro offset hn base total ls
      rw [scanAvx512Single]
      by_cases h : offset < (if 64 ≤ data.length then data.length - 63 else 0)
      · have hbound : offset + 64 ≤ data.length := by
          split at h <;> omega
        simp only [h, dite_true]
        rw [ih (data.length - (offset + 64)) (by omega) (offset + 64) rfl]
        rw [extract_cmpMask_eq_nlStartsFrom]
        rw [window_append data offset 64 hbound, nlStartsFrom_append,
          window_length data offset 64 hbound]
        have harr : base + offset + 64 = base + (offset + 64) := by omega
        rw [harr, List.append_assoc]
      · simp only [h, dite_false]
        rw [scanTailScalar_eq]


theorem scanAvx512Unrolled_eq (data : List Nat) :
    ∀ offset base total ls, scanAvx512Unrolled data offset base total ls =
      ls ++ nlStartsFrom (data.drop offset) (base + offset) total := by
  suffices main : ∀ n offset, data.length - offset = n →
      ∀ base total ls, scanAvx512Unrolled data offset base total ls =
        ls ++ nlStartsFrom (data.drop offset) (base + offset) total by
    intro offset; exact main (data.length - offset) offset rfl
  intro n
  induction n using Nat.strong_induction_on with
  | _ n ih =>
      intro offset hn base total ls
      rw [scanAvx512Unrolled]
      by_cases h : offset < (if 256 ≤ data.length then data.length - 255 else 0)
      · have hbound : offset + 256 ≤ data.length := by
          split at h <;> omega
        simp only [h, dite_true]
        rw [ih (data.length - (offset + 256)) (by omega) (offset + 256) rfl]
        rw [extract_cmpMask_eq_nlStartsFrom, extract_cmpMask_eq_nlStartsFrom,
          extract_cmpMask_eq_nlStartsFrom, extract_cmpMask_eq_nlStartsFrom]
        have e1 : data.drop offset =
            window data offset 64 ++ data.drop (offset + 64) :=
          window_append data offset 64 (by omega)
        have e2 : data.drop (offset + 64) =
            window data (offset + 64) 64 ++ data.drop (offset + 128) := by
          have := window_append data (offset + 64) 64 (by omega)
          rwa [show offset + 64 + 64 = offset + 128 by omega] at this
        have e3 : data.drop (offset + 128) =
            window data (offset + 128) 64 ++ data.drop (offset + 192) := by
          have := window_append data (offset + 128) 64 (by omega)
          rwa [show offset + 128 + 64 = offset + 192 by omega] at this
        have e4 : data.drop (offset + 192) =
            window data (offset + 192) 64 ++ data.drop (offset + 256) := by
          have := window_append data (offset + 192) 64 (by omega)
          rwa [show offset + 192 + 64 = offset + 256 by omega] at this
        rw [e1, nlStartsFrom_append, window_length data offset 64 (by omega),
          e2, nlStartsFrom_append, window_length data (offset + 64) 64 (by omega),
          e3, nlStartsFrom_append, window_length data (offset + 128) 64 (by omega),
          e4, nlStartsFrom_append, window_length data (offset + 192) 64 (by omega)]
        rw [show base + offset + 64 = base + (offset + 64) by omega,
          show base + (offset + 64) + 64 = base + (offset + 128) by omega,
          show base + (offset + 128) + 64 = base + (offset + 192) by omega,
          show base + (offset + 192) + 64 = base + (offset + 256) by omega]
        simp [List.append_assoc]
      · simp only [h, dite_false]
        rw [scanAvx512Single_eq]


theorem scan_region_avx512_eq (data : List Nat) (base total : Nat)
    (ls : List Nat) :
    scan_region_avx512 data base total ls = ls ++ nlStartsFrom data base total := by
  rw [scan_region_avx512, scanAvx512Unrolled_eq]
  simp

/-! ### The AVX-2 kernel (`scan_region_avx2`) -/
theorem two_mul_lor_two_mul (a b : Nat) : (2 * a) ||| (2 * b) = 2 * (a ||| b) := by
  rw [← bit_false_eq a, ← bit_false_eq b, Nat.lor_bit]
  simp [bit_false_eq]


theorem two_mul_add_one_lor_two_mul (a b : Nat) :
    (2 * a + 1) ||| (2 * b) = 2 * (a ||| b) + 1 := by
  rw [← bit_true_eq a, ← bit_false_eq b, Nat.lor_bit]
  simp [bit_true_eq]


theorem cmpMask_append (t : Nat) (w1 w2 : List Nat) :
    cmpMask t (w1 ++ w2) = cmpMask t w1 ||| (cmpMask t w2 <<< w1.length) := by
  induction w1 with
  | nil => simp [cmpMask]
  | cons b rest ih =>
      rw [List.cons_append, cmpMask, cmpMask, ih, List.length_cons]
      have hs : cmpMask t w2 <<< (rest.length + 1) =
          2 * (cmpMask t w2 <<< rest.length) := by
        rw [Nat.shiftLeft_eq, Nat.shiftLeft_eq, pow_succ]; ring
      rw [hs]
      by_cases hb : b = t
      · simp only [hb, eq_self_iff_true, if_true]
        rw [Nat.add_comm 1 (2 * cmpMask t rest), two_mul_add_one_lor_two_mul]
        omega
      · simp only [if_neg hb, Nat.zero_add]
        rw [two_mul_lor_two_mul]

/-- `avx2_cmp_64` from src/simd_scan.rs: two 32-byte compares whose
movemasks are composed as `mask_lo | (mask_hi << 32)`. -/
theorem window_split_64 (data : List Nat) (offset : Nat)
    (h : offset + 64 ≤ data.length) :
    window data offset 64 = window data offset 32 ++ window data (offset + 32) 32 := by
  have h1 : window data offset 64 =
      (data.drop offset).take 32 ++ ((data.drop offset).drop 32).take 32 := by
    rw [window, show (64 : Nat) = 32 + 32 from rfl, List.take_add]
  rw [h1, window, window]
  have h2 : (data.drop offset).drop 32 = data.drop (offset + 32) := by
    rw [List.drop_drop, Nat.add_comm]
  rw [h2]


theorem avx2_cmp_64_eq (data : List Nat) (offset : Nat)
    (h : offset + 64 ≤ data.length) :
    avx2_cmp_64 data offset = cmpMask 10 (window data offset 64) := by
  rw [avx2_cmp_64, window_split_64 data offset h, cmpMask_append,
    window_length data offset 32 (by omega)]

/-- Third stage of `scan_region_avx2`: single 32-byte blocks while
`offset < len - 31`, then the scalar tail. -/
theorem scanAvx2Ymm_eq (data : List Nat) :
    ∀ offset base total ls, scanAvx2Ymm data offset base total ls =
      ls ++ nlStartsFrom (data.drop offset) (base + offset) total := by
  suffices main : ∀ n offset, data.length - offset = n →
      ∀ base total ls, scanAvx2Ymm data offset base total ls =
        ls ++ nlStartsFrom (data.drop offset) (base + offset) total by
    intro offset; exact main (data.length - offset) offset rfl
  intro n
  induction n using Nat.strong_induction_on with
  | _ n ih =>
      intro offset hn base total ls
      rw [scanAvx2Ymm]
      by_cases h : offset < (if 32 ≤ data.length then data.length - 31 else 0)
      · have hbound : offset + 32 ≤ data.length := by
          split at h <;> omega
        simp only [h, dite_true]
        rw [ih (data.length - (offset + 32)) (by omega) (offset + 32) rfl]
        rw [extract_cmpMask_eq_nlStartsFrom]
        rw [window_append data offset 32 hbound, nlStartsFrom_append,
          window_length data offset 32 hbound]
        rw [show base + offset + 32 = base + (offset + 32) by omega,
          List.append_assoc]
      · simp only [h, dite_false]
        rw [scanTailScalar_eq]


theorem scanAvx2Single_eq (data : List Nat) :
    ∀ offset base total ls, scanAvx2Single data offset base total ls =
      ls ++ nlStartsFrom (data.drop offset) (base + offset) total := by
  suffices main : ∀ n offset, data.length - offset = n →
      ∀ base total ls, scanAvx2Single data offset base total ls =
        ls ++ nlStartsFrom (data.drop offset) (base + offset) total by
    intro offset; exact main (data.length - offset) offset rfl
  intro n
  induction n using Nat.strong_induction_on with
  | _ n ih =>
      intro offset hn base total ls
      rw [scanAvx2Single]
      by_cases h : offset < (if 64 ≤ data.length then data.length - 63 else 0)
      · have hbound : offset + 64 ≤ data.length := by
          split at h <;> omega
        simp only [h, dite_true]
        rw [ih (data.length - (offset + 64)) (by omega) (offset + 64) rfl]
        rw [avx2_cmp_64_eq data offset hbound, extract_cmpMask_eq_nlStartsFrom]
        rw [window_append data offset 64 hbound, nlStartsFrom_append,
          window_length data offset 64 hbound]
        rw [show base + offset + 64 = base + (offset + 64) by omega,
          List.append_assoc]
      · simp only [h, dite_false]
        rw [scanAvx2Ymm_eq]


theorem scanAvx2Unrolled_eq (data : List Nat) :
    ∀ offset base total ls, scanAvx2Unrolled data offset base total ls =
      ls ++ nlStartsFrom (data.drop offset) (base + offset) total := by
  suffices main : ∀ n offset, data.length - offset = n →
      ∀ base total ls, scanAvx2Unrolled data offset base total ls =
        ls ++ nlStartsFrom (data.drop offset) (base + offset) total by
    intro offset; exact main (data.length - offset) offset rfl
  intro n
  induction n using Nat.strong_induction_on with
  | _ n ih =>
      intro offset hn base total ls
      rw [scanAvx2Unrolled]
      by_cases h : offset < (if 256 ≤ data.length then data.length - 255 else 0)
      · have hbound : offset + 256 ≤ data.length := by
          split at h <;> omega
        simp only [h, dite_true]
        rw [ih (data.length - (offset + 256)) (by omega) (offset + 256) rfl]
        rw [avx2_cmp_64_eq data offset (by omega),
          avx2_cmp_64_eq data (offset + 64) (by omega),
          avx2_cmp_64_eq data (offset + 128) (by omega),
          avx2_cmp_64_eq data (offset + 192) (by omega)]
        rw [extract_cmpMask_eq_nlStartsFrom, extract_cmpMask_eq_nlStartsFrom,
          extract_cmpMask_eq_nlStartsFrom, extract_cmpMask_eq_nlStartsFrom]
        have e1 : data.drop offset =
            window data offset 64 ++ data.drop (offset + 64) :=
          window_append data offset 64 (by omega)
        have e2 : data.drop (offset + 64) =
            window data (offset + 64) 64 ++ data.drop (offset + 128) := by
          have := window_append data (offset + 64) 64 (by omega)
          rwa [show offset + 64 + 64 = offset + 128 by omega] at this
        have e3 : data.drop (offset + 128) =
            window data (offset + 128) 64 ++ data.drop (offset + 192) := by
          have := window_append data (offset + 128) 64 (by omega)
          rwa [show offset + 128 + 64 = offset + 192 by omega] at this
        have e4 : data.drop (offset + 192) =
            window data (offset + 192) 64 ++ data.drop (offset + 256) := by
          have := window_append data (offset + 192) 64 (by omega)
          rwa [show offset + 192 + 64 = offset + 256 by omega] at this
        rw [e1, nlStartsFrom_append, window_length data offset 64 (by omega),
          e2, nlStartsFrom_append, window_length data (offset + 64) 64 (by omega),
          e3, nlStartsFrom_append, window_length data (offset + 128) 64 (by omega),
          e4, nlStartsFrom_append, window_length data (offset + 192) 64 (by omega)]
        rw [show base + offset + 64 = base + (offset + 64) by omega,
          show base + (offset + 64) + 64 = base + (offset + 128) by omega,
          show base + (offset + 128) + 64 = base + (offset + 192) by omega,
          show base + (offset + 192) + 64 = base + (offset + 256) by omega]
        simp [List.append_assoc]
      · simp only [h, dite_false]
        rw [scanAvx2Single_eq]


theorem scan_region_avx2_eq (data : List Nat) (base total : Nat)
    (ls : List Nat) :
    scan_region_avx2 data base total ls = ls ++ nlStartsFrom data base total := by
  rw [scan_region_avx2, scanAvx2Unrolled_eq]
  simp

/-! ### Newline counters (`count_newlines_*`) -/

/-- `count_newlines_scalar` from src/simd_scan.rs. -/
theorem popcount_zero : popcount 0 = 0 := by rw [popcount]; simp


theorem popcount_two_mul (m : Nat) : popcount (2 * m) = popcount m := by
  by_cases h : m = 0
  · subst h; simp [popcount_zero]
  · rw [popcount]
    have h0 : ¬(2 * m = 0) := by omega
    simp only [h0, dite_false]
    rw [Nat.mul_mod_right, Nat.mul_div_cancel_left m (by norm_num : 0 < 2)]
    omega


theorem popcount_two_mul_add_one (m : Nat) :
    popcount (2 * m + 1) = popcount m + 1 := by
  rw [popcount]
  have h0 : ¬(2 * m + 1 = 0) := by omega
  simp only [h0, dite_false]
  have h1 : (2 * m + 1) % 2 = 1 := by omega
  have h2 : (2 * m + 1) / 2 = m := by omega
  rw [h1, h2]
  omega


theorem popcount_cmpMask (t : Nat) (w : List Nat) :
    popcount (cmpMask t w) = w.countP (fun b => decide (b = t)) := by
  induction w with
  | nil => simp [cmpMask, popcount_zero]
  | cons b rest ih =>
      rw [cmpMask, List.countP_cons]
      by_cases hb : b = t
      · simp only [hb, eq_self_iff_true, if_true]
        rw [Nat.add_comm 1 (2 * cmpMask t rest), popcount_two_mul_add_one, ih]
        simp
      · simp only [if_neg hb, Nat.zero_add]
        rw [popcount_two_mul, ih]
        simp [hb]


theorem countTailScalar_eq (data : List Nat) :
    ∀ offset cnt, countTailScalar data offset cnt =
      cnt + (data.drop offset).countP (fun b => decide (b = 10)) := by
  suffices main : ∀ n offset, data.length - offset = n →
      ∀ cnt, countTailScalar data offset cnt =
        cnt + (data.drop offset).countP (fun b => decide (b = 10)) by
    intro offset; exact main (data.length - offset) offset rfl
  intro n
  induction n using Nat.strong_induction_on with
  | _ n ih =>
      intro offset hn cnt
      rw [countTailScalar]
      by_cases h : offset < data.length
      · have hdrop : data.drop offset =
            data.getD offset 0 :: data.drop (offset + 1) := by
          rw [List.getD_eq_getElem data 0 h, List.drop_eq_getElem_cons h]
        simp only [h, dite_true]
        rw [ih (data.length - (offset + 1)) (by omega) (offset + 1) rfl, hdrop,
          List.countP_cons]
        by_cases hb : data.getD offset 0 = 10 <;>
          simp [List.getD] at hb <;> simp [hb] <;> omega
      · simp only [h, dite_false]
        rw [List.drop_eq_nil_of_le (by omega)]
        simp


theorem countP_window_split (data : List Nat) (offset k : Nat)
    (h : offset + k ≤ data.length) :
    (data.drop offset).countP (fun b => decide (b = 10)) =
      (window data offset k).countP (fun b => decide (b = 10)) +
        (data.drop (offset + k)).countP (fun b => decide (b = 10)) := by
  rw [window_append data offset k h, List.countP_append]


theorem countAvx512Single_eq (data : List Nat) :
    ∀ offset cnt, countAvx512Single data offset cnt =
      cnt + (data.drop offset).countP (fun b => decide (b = 10)) := by
  suffices main : ∀ n offset, data.length - offset = n →
      ∀ cnt, countAvx512Single data offset cnt =
        cnt + (data.drop offset).countP (fun b => decide (b = 10)) by
    intro offset; exact main (data.length - offset) offset rfl
  intro n
  induction n using Nat.strong_induction_on with
  | _ n ih =>
      intro offset hn cnt
      rw [countAvx512Single]
      by_cases h : offset < (if 64 ≤ data.length then data.length - 63 else 0)
      · have hbound : offset + 64 ≤ data.length := by
          split at h <;> omega
        simp only [h, dite_true]
        rw [ih (data.length - (offset + 64)) (by omega) (offset + 64) rfl,
          popcount_cmpMask, countP_window_split data offset 64 hbound]
        omega
      · simp only [h, dite_false]
        rw [countTailScalar_eq]


theorem countAvx512Unrolled_eq (data : List Nat) :
    ∀ offset cnt, countAvx512Unrolled data offset cnt =
      cnt + (data.drop offset).countP (fun b => decide (b = 10)) := by
  suffices main : ∀ n offset, data.length - offset = n →
      ∀ cnt, countAvx512Unrolled data offset cnt =
        cnt + (data.drop offset).countP (fun b => decide (b = 10)) by
    intro offset; exact main (data.length - offset) offset rfl
  intro n
  induction n using Nat.strong_induction_on with
  | _ n ih =>
      intro offset hn cnt
      rw [countAvx512Unrolled]
      by_cases h : offset < (if 256 ≤ data.length then data.length - 255 else 0)
      · have hbound : offset + 256 ≤ data.length := by
          split at h <;> omega
        simp only [h, dite_true]
        rw [ih (data.length - (offset + 256)) (by omega) (offset + 256) rfl]
        rw [popcount_cmpMask, popcount_cmpMask, popcount_cmpMask, popcount_cmpMask]
        rw [countP_window_split data offset 64 (by omega)]
        rw [show offset + 64 + 64 = offset + 128 from by omega] at *
        rw [countP_window_split data (offset + 64) 64 (by omega)]
        rw [show offset + 64 + 64 = offset + 128 from by omega]
        rw [countP_window_split data (offset + 128) 64 (by omega)]
        rw [show offset + 128 + 64 = offset + 192 from by omega]
        rw [countP_window_split data (offset + 192) 64 (by omega)]
        rw [show offset + 192 + 64 = offset + 256 from by omega]
        omega
      · simp only [h, dite_false]
        rw [countAvx512Single_eq]


theorem count_newlines_avx512_eq (data : List Nat) :
    count_newlines_avx512 data = count_newlines_scalar data := by
  rw [count_newlines_avx512, countAvx512Unrolled_eq, count_newlines_scalar]
  simp


theorem countAvx2Ymm_eq (data : List Nat) :
    ∀ offset cnt, countAvx2Ymm data offset cnt =
      cnt + (data.drop offset).countP (fun b => decide (b = 10)) := by
  suffices main : ∀ n offset, data.length - offset = n →
      ∀ cnt, countAvx2Ymm data offset cnt =
        cnt + (data.drop offset).countP (fun b => decide (b = 10)) by
    intro offset; exact main (data.length - offset) offset rfl
  intro n
  induction n using Nat.strong_induction_on with
  | _ n ih =>
      intro offset hn cnt
      rw [countAvx2Ymm]
      by_cases h : offset < (if 32 ≤ data.length then data.length - 31 else 0)
      · have hbound : offset + 32 ≤ data.length := by
          split at h <;> omega
        simp only [h, dite_true]
        rw [ih (data.length - (offset + 32)) (by omega) (offset + 32) rfl,
          popcount_cmpMask, countP_window_split data offset 32 hbound]
        omega
      · simp only [h, dite_false]
        rw [countTailScalar_eq]


theorem countAvx2Single_eq (data : List Nat) :
    ∀ offset cnt, countAvx2Single data offset cnt =
      cnt + (data.drop offset).countP (fun b => decide (b = 10)) := by
  suffices main : ∀ n offset, data.length - offset = n →
      ∀ cnt, countAvx2Single data offset cnt =
        cnt + (data.drop offset).countP (fun b => decide (b = 10)) by
    intro offset; exact main (data.length - offset) offset rfl
  intro n
  induction n using Nat.strong_induction_on with
  | _ n ih =>
      intro offset hn cnt
      rw [countAvx2Single]
      by_cases h : offset < (if 64 ≤ data.length then data.length - 63 else 0)
      · have hbound : offset + 64 ≤ data.length := by
          split at h <;> omega
        simp only [h, dite_true]
        rw [ih (data.length - (offset + 64)) (by omega) (offset + 64) rfl,
          avx2_cmp_64_eq data offset hbound, popcount_cmpMask,
          countP_window_split data offset 64 hbound]
        omega
      · simp only [h, dite_false]
        rw [countAvx2Ymm_eq]


theorem countAvx2Unrolled_eq (data : List Nat) :
    ∀ offset cnt, countAvx2Unrolled data offset cnt =
      cnt + (data.drop offset).countP (fun b => decide (b = 10)) := by
  suffices main : ∀ n offset, data.length - offset = n →
      ∀ cnt, countAvx2Unrolled data offset cnt =
        cnt + (data.drop offset).countP (fun b => decide (b = 10)) by
    intro offset; exact main (data.length - offset) offset rfl
  intro n
  induction n using Nat.strong_induction_on with
  | _ n ih =>
      intro offset hn cnt
      rw [countAvx2Unrolled]
      by_cases h : offset < (if 256 ≤ data.length then data.length - 255 else 0)
      · have hbound : offset + 256 ≤ data.length := by
          split at h <;> omega
        simp only [h, dite_true]
        rw [ih (data.length - (offset + 256)) (by omega) (offset + 256) rfl]
        rw [avx2_cmp_64_eq data offset (by omega),
          avx2_cmp_64_eq data (offset + 64) (by omega),
          avx2_cmp_64_eq data (offset + 128) (by omega),
          avx2_cmp_64_eq data (offset + 192) (by omega)]
        rw [popcount_cmpMask, popcount_cmpMask, popcount_cmpMask, popcount_cmpMask]
        rw [countP_window_split data offset 64 (by omega)]
        rw [countP_window_split data (offset + 64) 64 (by omega)]
        rw [show offset + 64 + 64 = offset + 128 from by omega]
        rw [countP_window_split data (offset + 128) 64 (by omega)]
        rw [show offset + 128 + 64 = offset + 192 from by omega]
        rw [countP_window_split data (offset + 192) 64 (by omega)]
        rw [show offset + 192 + 64 = offset + 256 from by omega]
        omega
      · simp only [h, dite_false]
        rw [countAvx2Single_eq]


theorem count_newlines_avx2_eq (data : List Nat) :
    count_newlines_avx2 data = count_newlines_scalar data := by
  rw [count_newlines_avx2, countAvx2Unrolled_eq, count_newlines_scalar]
  simp

/-! ### Dispatch -/

/-- The CPU capability picked once per process by `scan_region` /
`count_newlines_in_region`. -/
theorem scan_region_eq (cap : SimdCap) (data : List Nat) (base total : Nat)
    (ls : List Nat) :
    scan_region cap data base total ls = ls ++ nlStartsFrom data base total := by
  cases cap
  · exact scan_region_avx512_eq data base total ls
  · exact scan_region_avx2_eq data base total ls
  · exact scan_region_scalar_eq data base total ls


theorem nlStartsFrom_sorted (data : List Nat) :
    ∀ pos total, List.Sorted (· < ·) (nlStartsFrom data pos total) := by
  have hlb : ∀ w : List Nat, ∀ pos total x, x ∈ nlStartsFrom w pos total → pos < x := by
    intro w
    induction w with
    | nil => intro pos total x hx; simp [nlStartsFrom] at hx
    | cons b rest ih =>
        intro pos total x hx
        rw [nlStartsFrom] at hx
        rcases List.mem_append.mp hx with h1 | h2
        · split at h1 <;> simp at h1; omega
        · have := ih (pos + 1) total x h2; omega
  intro pos total
  induction data generalizing pos with
  | nil => simp [nlStartsFrom]
  | cons b rest ih =>
      rw [nlStartsFrom]
      by_cases hb : b = 10 ∧ pos + 1 < total
      · rw [if_pos hb]
        simp only [List.singleton_append, List.sorted_cons]
        exact ⟨fun x hx => hlb rest (pos + 1) total x hx, ih (pos + 1)⟩
      · rw [if_neg hb]
        simp only [List.nil_append]
        exact ih (pos + 1)


/-! ### Timestamp arithmetic (claim C5) -/

theorem swar_parse_4_eq (b : List Nat) (off : Nat)
    (h0 : 48 ≤ b.getD off 0 ∧ b.getD off 0 ≤ 57)
    (h1 : 48 ≤ b.getD (off + 1) 0 ∧ b.getD (off + 1) 0 ≤ 57)
    (h2 : 48 ≤ b.getD (off + 2) 0 ∧ b.getD (off + 2) 0 ≤ 57)
    (h3 : 48 ≤ b.getD (off + 3) 0 ∧ b.getD (off + 3) 0 ≤ 57) :
    swar_parse_4 b off = fourDigits b off := by
  unfold swar_parse_4 leU32 fourDigits
  dsimp only
  omega

theorem swar_parse_2_eq (b : List Nat) (off : Nat)
    (h0 : 48 ≤ b.getD off 0 ∧ b.getD off 0 ≤ 57)
    (h1 : 48 ≤ b.getD (off + 1) 0 ∧ b.getD (off + 1) 0 ≤ 57) :
    swar_parse_2 b off = twoDigits b off := by
  unfold swar_parse_2 leU16 twoDigits
  dsimp only
  omega

theorem twoDigits_le_99 (b : List Nat) (off : Nat)
    (h0 : 48 ≤ b.getD off 0 ∧ b.getD off 0 ≤ 57)
    (h1 : 48 ≤ b.getD (off + 1) 0 ∧ b.getD (off + 1) 0 ≤ 57) :
    twoDigits b off ≤ 99 := by
  unfold twoDigits
  omega

theorem is_leap_year_natCast (y : Nat) :
    is_leap_year (y : Int) ↔ gregorianLeap y := by
  unfold is_leap_year gregorianLeap
  omega

theorem div4_step (n : Nat) :
    (n + 2) / 4 = (n + 1) / 4 + (if (1970 + n) % 4 = 0 then 1 else 0) := by
  by_cases h4 : (1970 + n) % 4 = 0 <;> simp [h4] <;> omega

theorem div100_step (n : Nat) :
    (n + 70) / 100 = (n + 69) / 100 + (if (1970 + n) % 100 = 0 then 1 else 0) := by
  by_cases hc : (1970 + n) % 100 = 0 <;> simp [hc] <;> omega

theorem div400_step (n : Nat) :
    (n + 370) / 400 = (n + 369) / 400 + (if (1970 + n) % 400 = 0 then 1 else 0) := by
  by_cases hc : (1970 + n) % 400 = 0 <;> simp [hc] <;> omega

/-- The floor-division year correction of `parse_timestamp_fast` counts
exactly the leap days, in subtraction-free form. -/
theorem leapCountAux (n : Nat) :
    365 * n + (n + 1) / 4 + (n + 369) / 400 =
      daysOfYearsSinceEpoch n + (n + 69) / 100 := by
  induction n with
  | zero => decide
  | succ n ih =>
      rw [daysOfYearsSinceEpoch,
        show n + 1 + 1 = n + 2 from rfl,
        show n + 1 + 69 = n + 70 from rfl,
        show n + 1 + 369 = n + 370 from rfl,
        div4_step, div100_step, div400_step]
      have hdy : (gregorianLeap (1970 + n) ∧ daysInYear (1970 + n) = 366) ∨
          (¬gregorianLeap (1970 + n) ∧ daysInYear (1970 + n) = 365) := by
        by_cases hleap : gregorianLeap (1970 + n)
        · exact Or.inl ⟨hleap, by rw [daysInYear, if_pos hleap]⟩
        · exact Or.inr ⟨hleap, by rw [daysInYear, if_neg hleap]⟩
      unfold gregorianLeap at hdy
      rcases hdy with ⟨hc, he⟩ | ⟨hc, he⟩ <;> rw [he] <;>
        split_ifs with h4 h100 h400 <;> omega

theorem leapCountFormulaNat (n : Nat) :
    365 * n + (n + 1) / 4 + (n + 369) / 400 - (n + 69) / 100 =
      daysOfYearsSinceEpoch n := by
  have h := leapCountAux n
  omega

/-- The `i64` year correction of `parse_timestamp_fast`, as days since
1970. -/
theorem yearDaysInt (y : Nat) (hy : 1970 ≤ y) :
    ((y : Int) - 1970) * 365 + ((y : Int) - 1969) / 4 - ((y : Int) - 1901) / 100 +
      ((y : Int) - 1601) / 400 = (daysOfYearsSinceEpoch (y - 1970) : Int) := by
  have hlc := leapCountAux (y - 1970)
  zify [hy] at hlc
  have d1 : ((y : Int) - 1969) = ((y : Int) - 1970) + 1 := by ring
  have d2 : ((y : Int) - 1901) = ((y : Int) - 1970) + 69 := by ring
  have d3 : ((y : Int) - 1601) = ((y : Int) - 1970) + 369 := by ring
  rw [d1, d2, d3]
  omega

theorem month_table (leap : Prop) [Decidable leap] (mo : Nat)
    (h1 : 1 ≤ mo) (h2 : mo ≤ 12) :
    MONTH_DAYS.getD (mo - 1) 0 + (if 2 < mo ∧ leap then 1 else 0) =
      monthPrefix leap mo := by
  by_cases hl : leap <;> interval_cases mo <;>
    simp [MONTH_DAYS, monthPrefix, monthLength, hl]

theorem monthLength_le_31 (leap : Prop) [Decidable leap] (mo : Nat) :
    monthLength leap mo ≤ 31 := by
  unfold monthLength
  split <;> first | omega | (by_cases hl : leap <;> simp [hl])

theorem month_days_le_334 (mo : Nat) (h1 : 1 ≤ mo) (h2 : mo ≤ 12) :
    MONTH_DAYS.getD (mo - 1) 0 ≤ 334 := by
  interval_cases mo <;> decide

theorem clampCast (e : Int) (s : Nat) (h : e = (s : Int)) :
    (if e < 0 then 0 else e.toNat) = s := by
  rw [h]
  simp

theorem parse_timestamp_fast_short (b : List Nat) (h : b.length < 20) :
    parse_timestamp_fast b = 0 := by
  rw [parse_timestamp_fast, if_pos h]

/-- `parse_timestamp_fast` computes the spec's epoch seconds on any
in-range timestamp whose digit positions hold ASCII digits. -/
theorem parse_timestamp_fast_formula (b : List Nat) (h20 : 20 ≤ b.length)
    (hdig : tsDigitsOk b) (hy : 1970 ≤ fourDigits b 0)
    (hm1 : 1 ≤ twoDigits b 5) (hm2 : twoDigits b 5 ≤ 12)
    (hday : 1 ≤ twoDigits b 8) :
    parse_timestamp_fast b =
      epochSecondsSpec (fourDigits b 0) (twoDigits b 5) (twoDigits b 8)
        (twoDigits b 11) (twoDigits b 14) (twoDigits b 17) := by
  have g0 := hdig 0 (by decide)
  have g1 := hdig 1 (by decide)
  have g2 := hdig 2 (by decide)
  have g3 := hdig 3 (by decide)
  have g5 := hdig 5 (by decide)
  have g6 := hdig 6 (by decide)
  have g8 := hdig 8 (by decide)
  have g9 := hdig 9 (by decide)
  have g11 := hdig 11 (by decide)
  have g12 := hdig 12 (by decide)
  have g14 := hdig 14 (by decide)
  have g15 := hdig 15 (by decide)
  have g17 := hdig 17 (by decide)
  have g18 := hdig 18 (by decide)
  have e4 : swar_parse_4 b 0 = fourDigits b 0 := swar_parse_4_eq b 0 g0 g1 g2 g3
  have e5 : swar_parse_2 b 5 = twoDigits b 5 := swar_parse_2_eq b 5 g5 g6
  have e8 : swar_parse_2 b 8 = twoDigits b 8 := swar_parse_2_eq b 8 g8 g9
  have e11 : swar_parse_2 b 11 = twoDigits b 11 := swar_parse_2_eq b 11 g11 g12
  have e14 : swar_parse_2 b 14 = twoDigits b 14 := swar_parse_2_eq b 14 g14 g15
  have e17 : swar_parse_2 b 17 = twoDigits b 17 := swar_parse_2_eq b 17 g17 g18
  have hb14 : twoDigits b 14 ≤ 99 := twoDigits_le_99 b 14 g14 g15
  have hb17 : twoDigits b 17 ≤ 99 := twoDigits_le_99 b 17 g17 g18
  rw [parse_timestamp_fast, if_neg (by omega)]
  dsimp only
  simp only [swar_parse_hms, e4, e5, e8, e11, e14, e17]
  set y := fourDigits b 0 with hy_eq
  set mo := twoDigits b 5 with hmo_eq
  set d := twoDigits b 8 with hd_eq
  set hh := twoDigits b 11 with hhh_eq
  set mi := twoDigits b 14 with hmi_eq
  set ss := twoDigits b 17 with hss_eq
  have hhour : (hh * 10000 + mi * 100 + ss) / 10000 = hh := by omega
  have hminu : (hh * 10000 + mi * 100 + ss) / 100 % 100 = mi := by omega
  have hsec : (hh * 10000 + mi * 100 + ss) % 100 = ss := by omega
  simp only [hhour, hminu, hsec]
  rw [if_pos (⟨hm1, hm2⟩ : 1 ≤ mo ∧ mo ≤ 12)]
  simp only [is_leap_year_natCast]
  have hmt := month_table (gregorianLeap y) mo hm1 hm2
  by_cases hgt : (1970 : Int) < (y : Int)
  · rw [if_pos hgt]
    apply clampCast
    unfold epochSecondsSpec daysFromCivil
    rw [yearDaysInt y hy]
    by_cases hlp : 2 < mo ∧ gregorianLeap y
    · rw [if_pos hlp] at hmt ⊢
      push_cast [Nat.cast_sub hday]
      zify at hmt
      omega
    · rw [if_neg hlp] at hmt ⊢
      push_cast [Nat.cast_sub hday]
      zify at hmt
      omega
  · rw [if_neg hgt]
    have hy1970 : y = 1970 := by omega
    apply clampCast
    unfold epochSecondsSpec daysFromCivil
    rw [hy1970] at hmt ⊢
    by_cases hlp : 2 < mo ∧ gregorianLeap 1970
    · rw [if_pos hlp] at hmt ⊢
      push_cast [Nat.cast_sub hday]
      simp only [show (1970 : Nat) - 1970 = 0 from rfl, daysOfYearsSinceEpoch]
      zify at hmt
      omega
    · rw [if_neg hlp] at hmt ⊢
      push_cast [Nat.cast_sub hday]
      simp only [show (1970 : Nat) - 1970 = 0 from rfl, daysOfYearsSinceEpoch]
      zify at hmt
      omega

theorem clampNeg (e : Int) (h : e < 0) :
    (if e < 0 then 0 else e.toNat) = 0 := by
  rw [if_pos h]

theorem month_plus_len_1969 (mo : Nat) (h1 : 1 ≤ mo) (h2 : mo ≤ 12) :
    MONTH_DAYS.getD (mo - 1) 0 + monthLength (gregorianLeap 1969) mo ≤ 365 := by
  interval_cases mo <;> decide

/-- Valid dates before 1970 are clamped to zero. -/
theorem parse_timestamp_fast_pre1970 (b : List Nat) (h20 : 20 ≤ b.length)
    (hdig : tsDigitsOk b) (hyle : fourDigits b 0 ≤ 1969)
    (hm1 : 1 ≤ twoDigits b 5) (hm2 : twoDigits b 5 ≤ 12)
    (hday1 : 1 ≤ twoDigits b 8)
    (hdayle : twoDigits b 8 ≤
      monthLength (gregorianLeap (fourDigits b 0)) (twoDigits b 5))
    (hhh : twoDigits b 11 ≤ 23) (hmi : twoDigits b 14 ≤ 59)
    (hss : twoDigits b 17 ≤ 59) :
    parse_timestamp_fast b = 0 := by
  have g0 := hdig 0 (by decide)
  have g1 := hdig 1 (by decide)
  have g2 := hdig 2 (by decide)
  have g3 := hdig 3 (by decide)
  have g5 := hdig 5 (by decide)
  have g6 := hdig 6 (by decide)
  have g8 := hdig 8 (by decide)
  have g9 := hdig 9 (by decide)
  have g11 := hdig 11 (by decide)
  have g12 := hdig 12 (by decide)
  have g14 := hdig 14 (by decide)
  have g15 := hdig 15 (by decide)
  have g17 := hdig 17 (by decide)
  have g18 := hdig 18 (by decide)
  have e4 : swar_parse_4 b 0 = fourDigits b 0 := swar_parse_4_eq b 0 g0 g1 g2 g3
  have e5 : swar_parse_2 b 5 = twoDigits b 5 := swar_parse_2_eq b 5 g5 g6
  have e8 : swar_parse_2 b 8 = twoDigits b 8 := swar_parse_2_eq b 8 g8 g9
  have e11 : swar_parse_2 b 11 = twoDigits b 11 := swar_parse_2_eq b 11 g11 g12
  have e14 : swar_parse_2 b 14 = twoDigits b 14 := swar_parse_2_eq b 14 g14 g15
  have e17 : swar_parse_2 b 17 = twoDigits b 17 := swar_parse_2_eq b 17 g17 g18
  rw [parse_timestamp_fast, if_neg (by omega)]
  dsimp only
  simp only [swar_parse_hms, e4, e5, e8, e11, e14, e17]
  set y := fourDigits b 0 with hy_eq
  set mo := twoDigits b 5 with hmo_eq
  set d := twoDigits b 8 with hd_eq
  set hh := twoDigits b 11 with hhh_eq
  set mi := twoDigits b 14 with hmi_eq
  set ss := twoDigits b 17 with hss_eq
  have hhour : (hh * 10000 + mi * 100 + ss) / 10000 = hh := by omega
  have hminu : (hh * 10000 + mi * 100 + ss) / 100 % 100 = mi := by omega
  have hsec : (hh * 10000 + mi * 100 + ss) % 100 = ss := by omega
  simp only [hhour, hminu, hsec]
  rw [if_pos (⟨hm1, hm2⟩ : 1 ≤ mo ∧ mo ≤ 12)]
  simp only [is_leap_year_natCast]
  have hnotgt : ¬((1970 : Int) < (y : Int)) := by omega
  rw [if_neg hnotgt]
  have hM334 := month_days_le_334 mo hm1 hm2
  apply clampNeg
  by_cases hlp : 2 < mo ∧ gregorianLeap y
  · rw [if_pos hlp]
    by_cases hy69 : y = 1969
    · exfalso
      rcases hlp with ⟨_, hgl⟩
      rw [hy69] at hgl
      exact (by decide : ¬gregorianLeap 1969) hgl
    · have hd31 : d ≤ 31 := le_trans hdayle (monthLength_le_31 _ mo)
      omega
  · rw [if_neg hlp]
    by_cases hy69 : y = 1969
    · have hml := month_plus_len_1969 mo hm1 hm2
      rw [hy69] at hdayle ⊢
      omega
    · have hd31 : d ≤ 31 := le_trans hdayle (monthLength_le_31 _ mo)
      omega

/-! ### Classifier (claim C6) -/

theorem classify_lower_eq_ordered (x : List Nat) :
    classify_lower x =
      (if x ∈ TIMESTAMP_NAMES then WellKnownKind.Timestamp
       else if x ∈ LEVEL_NAMES then WellKnownKind.Level
       else if x ∈ MESSAGE_NAMES then WellKnownKind.Message
       else if x ∈ COMPONENT_NAMES then WellKnownKind.Component
       else WellKnownKind.Other) := by
  by_cases hT : x ∈ TIMESTAMP_NAMES
  · rw [if_pos hT]
    simp only [TIMESTAMP_NAMES, List.mem_cons, List.not_mem_nil, or_false] at hT
    rcases hT with rfl | rfl | rfl | rfl | rfl | rfl | rfl | rfl | rfl | rfl <;>
      simp [classify_lower, TIMESTAMP_NAMES, LEVEL_NAMES, MESSAGE_NAMES,
        COMPONENT_NAMES]
  · rw [if_neg hT]
    by_cases hL : x ∈ LEVEL_NAMES
    · rw [if_pos hL]
      simp only [LEVEL_NAMES, List.mem_cons, List.not_mem_nil, or_false] at hL
      rcases hL with rfl | rfl | rfl | rfl | rfl | rfl | rfl | rfl <;>
        simp [classify_lower, TIMESTAMP_NAMES, LEVEL_NAMES, MESSAGE_NAMES,
          COMPONENT_NAMES]
    · rw [if_neg hL]
      by_cases hM : x ∈ MESSAGE_NAMES
      · rw [if_pos hM]
        simp only [MESSAGE_NAMES, List.mem_cons, List.not_mem_nil, or_false] at hM
        rcases hM with rfl | rfl | rfl | rfl | rfl | rfl | rfl <;>
          simp [classify_lower, TIMESTAMP_NAMES, LEVEL_NAMES, MESSAGE_NAMES,
            COMPONENT_NAMES]
      · rw [if_neg hM]
        by_cases hC : x ∈ COMPONENT_NAMES
        · rw [if_pos hC]
          simp only [COMPONENT_NAMES, List.mem_cons, List.not_mem_nil,
            or_false] at hC
          rcases hC with rfl | rfl | rfl | rfl | rfl | rfl | rfl | rfl | rfl | rfl <;>
            simp [classify_lower, TIMESTAMP_NAMES, LEVEL_NAMES, MESSAGE_NAMES,
              COMPONENT_NAMES]
        · rw [if_neg hC]
          cases x with
          | nil => rfl
          | cons b rest =>
              unfold classify_lower
              simp only [List.head?_cons]
              split_ifs <;> simp [hT, hL, hM, hC]

theorem toLowerByte_idem (c : Nat) :
    toLowerByte (toLowerByte c) = toLowerByte c := by
  unfold toLowerByte
  split_ifs <;> omega

theorem names_short :
    (∀ n ∈ TIMESTAMP_NAMES, n.length < 64) ∧
      (∀ n ∈ LEVEL_NAMES, n.length < 64) ∧
      (∀ n ∈ MESSAGE_NAMES, n.length < 64) ∧
      (∀ n ∈ COMPONENT_NAMES, n.length < 64) := by
  decide

theorem classify_key_eq_spec (key : List Nat) :
    classify_key key = classify_key_spec key := by
  by_cases hlen : 64 < key.length
  · rw [classify_key_spec, if_pos hlen]
    rw [classify_key, classify_lower_eq_ordered]
    have hlen64 : ((key.take 64).map toLowerByte).length = 64 := by
      rw [List.length_map, List.length_take]
      omega
    have hni : ∀ names : List (List Nat), (∀ n ∈ names, n.length < 64) →
        (key.take 64).map toLowerByte ∉ names := by
      intro names hn hm
      have := hn _ hm
      omega
    rw [if_neg (hni _ names_short.1), if_neg (hni _ names_short.2.1),
      if_neg (hni _ names_short.2.2.1), if_neg (hni _ names_short.2.2.2)]
  · rw [classify_key_spec, if_neg hlen]
    rw [classify_key, List.take_of_length_le (by omega), classify_lower_eq_ordered]

theorem classify_key_lowercase_invariant (key : List Nat) :
    classify_key (key.map toLowerByte) = classify_key key := by
  rw [classify_key, classify_key]
  congr 1
  rw [← List.map_take, List.map_map]
  apply List.map_congr_left
  intro c _
  exact toLowerByte_idem c


/-! ### Claim theorems C1 and C9 -/

/-- C1: for every byte slice, base offset and total buffer length,
`scan_region` appends to the seeded vector exactly the offsets
`base + p + 1` for the newline positions `p` of the slice, in increasing
order, keeping only offsets strictly below `total` and appending no
starting sentinel; this equals the scalar reference `newlineStarts`
(which filters the newline positions and shifts by one), and coincides
with `scan_region_scalar` on every capability. -/
theorem scan_region_appends_shifted_newline_offsets (cap : SimdCap)
    (data : List Nat) (base total : Nat) (ls : List Nat) :
    scan_region cap data base total ls = ls ++ newlineStarts data base total ∧
    (∀ p, p ∈ newlinePositions data ↔ p < data.length ∧ data.getD p 0 = 10) ∧
    List.Sorted (· < ·) (newlineStarts data base total) ∧
    scan_region cap data base total ls =
      scan_region_scalar data base total ls := by
  refine ⟨?_, mem_newlinePositions data, ?_, ?_⟩
  · rw [scan_region_eq, nlStartsFrom_eq_newlineStarts]
  · rw [← nlStartsFrom_eq_newlineStarts]
    exact nlStartsFrom_sorted data base total
  · rw [scan_region_eq, scan_region_scalar_eq]

/-- C9: for every input slice, base offset and total length, the AVX-512,
AVX-2 and scalar scan kernels append identical line-start offset
sequences, and the three newline-count kernels return identical counts. -/
theorem simd_kernel_parity (data : List Nat) (base total : Nat)
    (ls : List Nat) :
    scan_region_avx512 data base total ls =
        scan_region_scalar data base total ls ∧
    scan_region_avx2 data base total ls =
        scan_region_scalar data base total ls ∧
    count_newlines_avx512 data = count_newlines_scalar data ∧
    count_newlines_avx2 data = count_newlines_scalar data := by
  refine ⟨?_, ?_, count_newlines_avx512_eq data, count_newlines_avx2_eq data⟩
  · rw [scan_region_avx512_eq, scan_region_scalar_eq]
  · rw [scan_region_avx2_eq, scan_region_scalar_eq]


/-! ### Claim theorem C5 -/

/-- C5: for every input of at least 20 bytes whose digit positions hold
ASCII digits (with an in-range month and day), `parse_timestamp_fast`
returns `days * 86400 + hh * 3600 + mm * 60 + ss` where `days` counts days
since 1970-01-01 under the Gregorian leap rule (`epochSecondsSpec` /
`daysFromCivil` / `gregorianLeap`); inputs shorter than 20 bytes return 0;
valid dates before 1970 are clamped to 0; and the example
`2025-02-12T10:31:45Z` maps to 1739356305. -/
theorem parse_timestamp_fast_spec (b : List Nat) (h20 : 20 ≤ b.length)
    (hdig : tsDigitsOk b) (hm1 : 1 ≤ twoDigits b 5) (hm2 : twoDigits b 5 ≤ 12)
    (hday : 1 ≤ twoDigits b 8) :
    (1970 ≤ fourDigits b 0 →
      parse_timestamp_fast b =
        epochSecondsSpec (fourDigits b 0) (twoDigits b 5) (twoDigits b 8)
          (twoDigits b 11) (twoDigits b 14) (twoDigits b 17)) ∧
    (fourDigits b 0 ≤ 1969 →
      twoDigits b 8 ≤
        monthLength (gregorianLeap (fourDigits b 0)) (twoDigits b 5) →
      twoDigits b 11 ≤ 23 → twoDigits b 14 ≤ 59 → twoDigits b 17 ≤ 59 →
      parse_timestamp_fast b = 0) ∧
    (∀ s : List Nat, s.length < 20 → parse_timestamp_fast s = 0) ∧
    parse_timestamp_fast
        [50, 48, 50, 53, 45, 48, 50, 45, 49, 50, 84, 49, 48, 58, 51, 49,
          58, 52, 53, 90] = 1739356305 := by
  refine ⟨fun hy => parse_timestamp_fast_formula b h20 hdig hy hm1 hm2 hday,
    fun hyle hdayle hhh hmi hss =>
      parse_timestamp_fast_pre1970 b h20 hdig hyle hm1 hm2 hday hdayle hhh
        hmi hss,
    fun s hs => parse_timestamp_fast_short s hs, ?_⟩
  decide

/-- Witness for C5 at the concrete timestamp `2025-02-12T10:31:45Z`. -/
theorem parse_timestamp_fast_spec_witness :
    parse_timestamp_fast
        [50, 48, 50, 53, 45, 48, 50, 45, 49, 50, 84, 49, 48, 58, 51, 49,
          58, 52, 53, 90] =
      epochSecondsSpec
        (fourDigits
          [50, 48, 50, 53, 45, 48, 50, 45, 49, 50, 84, 49, 48, 58, 51, 49,
            58, 52, 53, 90] 0)
        (twoDigits
          [50, 48, 50, 53, 45, 48, 50, 45, 49, 50, 84, 49, 48, 58, 51, 49,
            58, 52, 53, 90] 5)
        (twoDigits
          [50, 48, 50, 53, 45, 48, 50, 45, 49, 50, 84, 49, 48, 58, 51, 49,
            58, 52, 53, 90] 8)
        (twoDigits
          [50, 48, 50, 53, 45, 48, 50, 45, 49, 50, 84, 49, 48, 58, 51, 49,
            58, 52, 53, 90] 11)
        (twoDigits
          [50, 48, 50, 53, 45, 48, 50, 45, 49, 50, 84, 49, 48, 58, 51, 49,
            58, 52, 53, 90] 14)
        (twoDigits
          [50, 48, 50, 53, 45, 48, 50, 45, 49, 50, 84, 49, 48, 58, 51, 49,
            58, 52, 53, 90] 17) :=
  (parse_timestamp_fast_spec
    [50, 48, 50, 53, 45, 48, 50, 45, 49, 50, 84, 49, 48, 58, 51, 49, 58,
      52, 53, 90]
    (by decide) (by decide) (by decide) (by decide) (by decide)).1 (by decide)


/-! ### Claim theorem C6 -/

/-- C6: `classify_key` returns Timestamp / Level / Message / Component
exactly when the ASCII-lowercased key is in the corresponding canonical
vocabulary (`TIMESTAMP_NAMES`, `LEVEL_NAMES`, `MESSAGE_NAMES`,
`COMPONENT_NAMES`, looked up in that order) and Other otherwise
(`classify_key_spec`); it is case-insensitive; and every key longer than
64 bytes is classified Other. -/
theorem classify_key_vocabulary (key : List Nat) :
    classify_key key = classify_key_spec key ∧
    classify_key (key.map toLowerByte) = classify_key key ∧
    (64 < key.length → classify_key key = WellKnownKind.Other) := by
  refine ⟨classify_key_eq_spec key, classify_key_lowercase_invariant key,
    fun h => ?_⟩
  rw [classify_key_eq_spec, classify_key_spec, if_pos h]

/-- Witness for C6 at a concrete 65-byte key. -/
theorem classify_key_vocabulary_witness :
    classify_key (List.replicate 65 97) = WellKnownKind.Other :=
  (classify_key_vocabulary (List.replicate 65 97)).2.2 (by decide)


/-! ### Claim theorems C7 -/

/-- C7 counterexample: on the one-space line `x y` (bytes `[120, 32, 121]`)
the bytes after the single space do NOT become the message: `parse_line`
leaves the message empty (length 0 instead of the claimed 1), feeding the
remainder to the level parser instead. -/
theorem parse_line_one_space_no_message :
    (find_first_3_spaces [120, 32, 121]).1 = some 1 ∧
    (find_first_3_spaces [120, 32, 121]).2.1 = none ∧
    (parse_line [120, 32, 121] 0).message_len = 0 ∧
    ¬ (parse_line [120, 32, 121] 0).message_len =
        ([120, 32, 121] : List Nat).length - 2 := by
  decide

/-- C7 (amended): with no space the whole line is the message; with
exactly one space the bytes after it are parsed as the LEVEL and
component/message are empty; with exactly two spaces the bytes after the
second space become the COMPONENT and the message is empty. -/
theorem parse_line_missing_separators (line : List Nat) (base : Nat) :
    ((find_first_3_spaces line).1 = none →
      parse_line line base =
        { timestamp := 0, level := LogLevel.Unknown,
          component_offset := base, component_len := 0,
          message_offset := base, message_len := line.length }) ∧
    (∀ s1, find_first_3_spaces line = (some s1, none, none) →
      parse_line line base =
        { timestamp := parse_timestamp_fast (line.take s1),
          level := LogLevel.from_bytes (line.drop (s1 + 1)),
          component_offset := base + line.length, component_len := 0,
          message_offset := base + line.length, message_len := 0 }) ∧
    (∀ s1 s2, find_first_3_spaces line = (some s1, some s2, none) →
      parse_line line base =
        { timestamp := parse_timestamp_fast (line.take s1),
          level := LogLevel.from_bytes (slice line (s1 + 1) s2),
          component_offset := base + (s2 + 1),
          component_len := line.length - (s2 + 1),
          message_offset := base + line.length, message_len := 0 }) := by
  refine ⟨fun h1 => ?_, fun s1 h => ?_, fun s1 s2 h => ?_⟩
  · simp [parse_line, h1]
  · simp [parse_line, h]
  · simp [parse_line, h]

/-- Witness for C7 (amended) at the one-space line `x y`. -/
theorem parse_line_missing_separators_witness :
    parse_line [120, 32, 121] 0 =
      { timestamp := parse_timestamp_fast (([120, 32, 121] : List Nat).take 1),
        level := LogLevel.from_bytes (([120, 32, 121] : List Nat).drop (1 + 1)),
        component_offset := 0 + ([120, 32, 121] : List Nat).length,
        component_len := 0,
        message_offset := 0 + ([120, 32, 121] : List Nat).length,
        message_len := 0 } :=
  (parse_line_missing_separators [120, 32, 121] 0).2.1 1 (by decide)


/-! ### Claim theorem C10 -/

theorem parse_format_mmap_format (cap : SimdCap) (data : List Nat)
    (nt cs : Nat) (fmt : LogFormat) (hdr : Option CsvHeader) :
    (parse_format_mmap cap data nt cs fmt hdr).format = fmt := by
  rw [parse_format_mmap]
  split_ifs <;> rfl

/-- C10: for every non-empty buffer whose effective format (hint, or
detection result when no hint is given) is PlainText,
`parse_structured_mmap` is exactly `parse_logfmt_mmap` — every line goes
through the logfmt parser — and the reported format is Logfmt, never
PlainText. -/
theorem plaintext_parsed_as_logfmt (cap : SimdCap) (data : List Nat)
    (nt cs : Nat) (hint : Option LogFormat) (h0 : data.length ≠ 0)
    (hfmt : hint.getD (LogFormat.detect data) = LogFormat.PlainText) :
    parse_structured_mmap cap data nt cs hint =
      parse_logfmt_mmap cap data nt cs ∧
    (parse_structured_mmap cap data nt cs hint).format = LogFormat.Logfmt ∧
    (parse_structured_mmap cap data nt cs hint).format ≠
      LogFormat.PlainText := by
  have heq : parse_structured_mmap cap data nt cs hint =
      parse_logfmt_mmap cap data nt cs := by
    rw [parse_structured_mmap, if_neg h0, hfmt]
  have hf : (parse_structured_mmap cap data nt cs hint).format =
      LogFormat.Logfmt := by
    rw [heq, parse_logfmt_mmap, parse_format_mmap_format]
  exact ⟨heq, hf, by rw [hf]; intro hc; cases hc⟩

/-- Witness for C10 at the concrete plain-text buffer `hello world\n` with
an explicit PlainText hint. -/
theorem plaintext_parsed_as_logfmt_witness :
    parse_structured_mmap SimdCap.scalar
        [104, 101, 108, 108, 111, 32, 119, 111, 114, 108, 100, 10] 1 16
        (some LogFormat.PlainText) =
      parse_logfmt_mmap SimdCap.scalar
        [104, 101, 108, 108, 111, 32, 119, 111, 114, 108, 100, 10] 1 16 ∧
    (parse_structured_mmap SimdCap.scalar
        [104, 101, 108, 108, 111, 32, 119, 111, 114, 108, 100, 10] 1 16
        (some LogFormat.PlainText)).format = LogFormat.Logfmt ∧
    (parse_structured_mmap SimdCap.scalar
        [104, 101, 108, 108, 111, 32, 119, 111, 114, 108, 100, 10] 1 16
        (some LogFormat.PlainText)).format ≠ LogFormat.PlainText :=
  plaintext_parsed_as_logfmt SimdCap.scalar
    [104, 101, 108, 108, 111, 32, 119, 111, 114, 108, 100, 10] 1 16
    (some LogFormat.PlainText) (by decide) (by decide)


/-! ### Claim theorems C4 and C8 (code-bug evaluations) -/

/-- C4 (code bug): on the CSV buffer `aaaaaaaaaa,bb,cc\nx,y,z`,
`parse_csv_mmap` produces a batch whose buffer is the header-stripped body
(5 bytes) while the header's column key offsets index into the FULL
buffer, so a pushed field reference violates
`key_offset + key_len ≤ buffer_len`. -/
theorem csv_mmap_key_offset_out_of_bounds :
    ∃ b ∈ (parse_csv_mmap SimdCap.scalar
        [97, 97, 97, 97, 97, 97, 97, 97, 97, 97, 44, 98, 98, 44, 99, 99,
          10, 120, 44, 121, 44, 122] 1 64).batches,
      ∃ f ∈ b.fields,
        (([97, 97, 97, 97, 97, 97, 97, 97, 97, 97, 44, 98, 98, 44, 99, 99,
            10, 120, 44, 121, 44, 122] : List Nat).drop
          (header_end_offset
            [97, 97, 97, 97, 97, 97, 97, 97, 97, 97, 44, 98, 98, 44, 99,
              99, 10, 120, 44, 121, 44, 122])).length <
          f.key_offset + f.key_len := by
  decide

/-- C8 (code bug): with a 6-byte segment size over the 16-byte file
`aaa\nbbb\nccc\nddd\n`, `parse_logs_streamed` counts 4 lines in
`total_lines` but retains only the first segment's batch, holding a single
record — the later segments' batches are discarded, so records counted in
the totals do not all belong to a retained batch. -/
theorem streamed_discards_all_but_first_batch :
    (parse_logs_streamed SimdCap.scalar
        [97, 97, 97, 10, 98, 98, 98, 10, 99, 99, 99, 10, 100, 100, 100, 10]
        6).total_lines = 4 ∧
    (parse_logs_streamed SimdCap.scalar
        [97, 97, 97, 10, 98, 98, 98, 10, 99, 99, 99, 10, 100, 100, 100, 10]
        6).batches.length = 1 ∧
    ((parse_logs_streamed SimdCap.scalar
        [97, 97, 97, 10, 98, 98, 98, 10, 99, 99, 99, 10, 100, 100, 100, 10]
        6).batches.map LogBatch.len).sum = 1 := by
  decide


/-! ### Claim theorems C2 -/

theorem linesOf_ne_nil (data : List Nat) (h : data ≠ []) :
    linesOf data ≠ [] := by
  cases data with
  | nil => exact absurd rfl h
  | cons b rest =>
      rw [linesOf]
      by_cases hb : b = 10
      · simp [hb]
      · rw [if_neg hb]
        cases hl : linesOf rest <;> simp

theorem nlStartsFrom_length_linesOf (data : List Nat) :
    data ≠ [] → ∀ pos,
      (nlStartsFrom data pos (pos + data.length)).length + 1 =
        (linesOf data).length := by
  induction data with
  | nil => intro h; exact absurd rfl h
  | cons b rest ih =>
      intro _ pos
      cases rest with
      | nil =>
          by_cases hb : b = 10 <;>
            simp [nlStartsFrom, linesOf, hb]
      | cons c rest2 =>
          rw [nlStartsFrom, linesOf]
          have hcond : pos + 1 < pos + (c :: rest2 : List Nat).length + 1 := by
            simp
          have htot : pos + ((b :: c :: rest2 : List Nat).length) =
              (pos + 1) + (c :: rest2 : List Nat).length := by
            simp; omega
          rw [htot]
          have hrec := ih (by simp) (pos + 1)
          simp only [List.length_cons] at hrec
          by_cases hb : b = 10
          · rw [if_pos ⟨hb, by simpa using hcond⟩, if_pos hb]
            simp only [List.length_append, List.length_cons, List.length_nil]
            omega
          · rw [if_neg (fun hc => hb hc.1), if_neg hb]
            obtain ⟨l, ls, hl⟩ :=
              List.exists_cons_of_ne_nil (linesOf_ne_nil (c :: rest2) (by simp))
            rw [hl] at hrec ⊢
            simp only [List.nil_append, List.length_cons] at hrec ⊢
            omega

theorem slice_zero_length (data : List Nat) :
    slice data 0 data.length = data := by
  simp [slice]

theorem parse_chunk_len (cap : SimdCap) (data : List Nat) :
    (parse_chunk cap data 0 data.length).len =
      (nlStartsFrom data 0 data.length).length + 1 := by
  rw [parse_chunk]
  simp only [slice_zero_length, scan_region_eq, LogBatch.new]
  simp

theorem boundariesLoop_big (data : List Nat) (chunkSize : Nat)
    (h : data.length ≤ chunkSize) (fuel : Nat) :
    boundariesLoop data chunkSize (fuel + 1) chunkSize = [] := by
  rw [boundariesLoop]
  rw [if_neg (by omega)]

theorem parse_logs_pipelined_single_chunk (cap : SimdCap) (data : List Nat)
    (numThreads chunkSize : Nat) (h0 : data.length ≠ 0)
    (h : data.length ≤ chunkSize) :
    parse_logs_pipelined cap data numThreads chunkSize =
      { batches := [parse_chunk cap data 0 data.length],
        total_lines := (parse_chunk cap data 0 data.length).len } := by
  have hb : chunkBoundaries data chunkSize = [0, data.length] := by
    rw [chunkBoundaries, boundariesLoop_big data chunkSize h]
    rfl
  rw [parse_logs_pipelined, if_neg h0, hb]
  have hr : List.range 1 = [0] := rfl
  simp [hr]

/-! ### Worker partition and reassembly (claim C3) -/

theorem foldl_set_length {β : Type} (f : Nat → β) :
    ∀ (idxs : List Nat) (init : List (Option β)),
      (idxs.foldl (fun o i => o.set i (some (f i))) init).length =
        init.length := by
  intro idxs
  induction idxs with
  | nil => intro init; rfl
  | cons i rest ih => intro init; rw [List.foldl_cons, ih, List.length_set]

theorem foldl_set_getElem {β : Type} (f : Nat → β) :
    ∀ (idxs : List Nat) (init : List (Option β)) (j : Nat),
      (idxs.foldl (fun o i => o.set i (some (f i))) init)[j]? =
        if j ∈ idxs ∧ j < init.length then some (some (f j))
        else init[j]? := by
  intro idxs
  induction idxs with
  | nil => intro init j; simp
  | cons i rest ih =>
      intro init j
      rw [List.foldl_cons, ih, List.length_set]
      by_cases hr : j ∈ rest ∧ j < init.length
      · rw [if_pos hr, if_pos ⟨List.mem_cons_of_mem i hr.1, hr.2⟩]
      · rw [if_neg hr, List.getElem?_set]
        by_cases hij : i = j
        · subst hij
          by_cases hlt : i < init.length
          · simp [hlt]
          · rw [if_pos rfl, if_neg hlt,
              if_neg (fun hc => hlt hc.2),
              List.getElem?_eq_none (by omega)]
        · rw [if_neg hij]
          have hno : ¬ (j ∈ i :: rest ∧ j < init.length) := by
            intro hc
            rcases List.mem_cons.mp hc.1 with h1 | h1
            · exact hij h1.symm
            · exact hr ⟨h1, hc.2⟩
          rw [if_neg hno]

theorem range'_glue (g : Nat → Nat) (hg : ∀ i, g i ≤ g (i + 1)) :
    ∀ k, ((List.range k).map
        (fun w => List.range' (g w) (g (w + 1) - g w))).flatten =
      List.range' (g 0) (g k - g 0) := by
  intro k
  induction k with
  | zero => simp
  | succ k ih =>
      rw [List.range_succ, List.map_append,
        List.flatten_append
          (List.map (fun w => List.range' (g w) (g (w + 1) - g w))
            (List.range k))
          (List.map (fun w => List.range' (g w) (g (w + 1) - g w)) [k]),
        ih]
      simp only [List.map_cons, List.map_nil, List.join_cons, List.join_nil,
        List.append_nil]
      have hmono : g 0 ≤ g k := by
        clear ih
        induction k with
        | zero => exact le_refl (g 0)
        | succ k ih2 => exact le_trans ih2 (hg k)
      have h1 : g 0 + (g k - g 0) = g k := by omega
      have h2 := List.range'_append (g 0) (g k - g 0) (g (k + 1) - g k) 1
      rw [one_mul, h1] at h2
      rw [h2]
      congr 1
      have h3 := hg k
      omega

theorem assignments_cover (n W : Nat) (hW : 1 ≤ W) :
    ((List.range W).map (assignmentsFor n W)).flatten = List.range n := by
  have hg : ∀ i, (i * n) / W ≤ ((i + 1) * n) / W := fun i =>
    Nat.div_le_div_right (Nat.mul_le_mul_right n (Nat.le_succ i))
  have h := range'_glue (fun w => (w * n) / W) hg W
  simp only at h
  have h0 : (0 * n) / W = 0 := by simp
  have hWn : (W * n) / W = n := Nat.mul_div_cancel_left n (by omega)
  rw [h0, hWn, Nat.sub_zero] at h
  rw [← List.range_eq_range'] at h
  rw [← h]
  rfl

theorem mmapAssemble_eq_map {β : Type} (f : Nat → β) (n W : Nat)
    (hW : 1 ≤ W) :
    mmapAssemble f n W = (List.range n).map f := by
  rw [mmapAssemble]
  have h1 : (List.range W).foldl
      (fun ord w => (assignmentsFor n W w).foldl
        (fun o i => o.set i (some (f i))) ord)
      (List.replicate n (none : Option β)) =
      (((List.range W).map (assignmentsFor n W)).flatten).foldl
        (fun o i => o.set i (some (f i)))
        (List.replicate n (none : Option β)) := by
    rw [List.foldl_flatten, List.foldl_map]
  rw [h1, assignments_cover n W hW]
  have h2 : (List.range n).foldl (fun o i => o.set i (some (f i)))
      (List.replicate n (none : Option β)) =
      (List.range n).map (fun i => some (f i)) := by
    apply List.ext_getElem?
    intro j
    rw [foldl_set_getElem, List.length_replicate]
    by_cases hj : j < n
    · rw [if_pos ⟨List.mem_range.mpr hj, hj⟩, List.getElem?_map]
      rw [List.getElem?_range hj]
      rfl
    · rw [if_neg (fun hc => hj hc.2),
        List.getElem?_eq_none (by simpa using hj),
        List.getElem?_eq_none (by simp; omega)]
  rw [h2, List.filterMap_map]
  have h3 : (Option.some ∘ f) = (id ∘ fun i => some (f i)) := rfl
  rw [← h3, List.filterMap_eq_map]


theorem worker_threads_pos (nt nc : Nat) :
    1 ≤ min (max nt 1) (max nc 1) :=
  le_min (le_max_right nt 1) (le_max_right nc 1)

theorem parse_logs_pipelined_canonical (cap : SimdCap) (data : List Nat)
    (nt chunkSize : Nat) (h0 : data.length ≠ 0) :
    parse_logs_pipelined cap data nt chunkSize =
      { batches :=
          (List.range ((chunkBoundaries data chunkSize).length - 1)).map
            (fun i => parse_chunk cap data
              ((chunkBoundaries data chunkSize).getD i 0)
              ((chunkBoundaries data chunkSize).getD (i + 1) 0)),
        total_lines :=
          (((List.range ((chunkBoundaries data chunkSize).length - 1)).map
            (fun i => parse_chunk cap data
              ((chunkBoundaries data chunkSize).getD i 0)
              ((chunkBoundaries data chunkSize).getD (i + 1) 0))).map
            LogBatch.len).sum } := by
  rw [parse_logs_pipelined, if_neg h0]
  simp only
  split_ifs with hcase
  · rfl
  · rw [mmapAssemble_eq_map _ _ _ (worker_threads_pos nt
      ((chunkBoundaries data chunkSize).length - 1))]


theorem parse_format_mmap_canonical (cap : SimdCap) (data : List Nat)
    (nt chunkSize : Nat) (fmt : LogFormat) (hdr : Option CsvHeader)
    (h0 : data.length ≠ 0) :
    parse_format_mmap cap data nt chunkSize fmt hdr =
      { batches :=
          (List.range ((chunkBoundaries data chunkSize).length - 1)).map
            (fun i => parse_structured_chunk cap data
              ((chunkBoundaries data chunkSize).getD i 0)
              ((chunkBoundaries data chunkSize).getD (i + 1) 0) fmt hdr),
        total_records :=
          (((List.range ((chunkBoundaries data chunkSize).length - 1)).map
            (fun i => parse_structured_chunk cap data
              ((chunkBoundaries data chunkSize).getD i 0)
              ((chunkBoundaries data chunkSize).getD (i + 1) 0) fmt hdr)).map
            StructuredBatch.len).sum,
        total_fields :=
          (((List.range ((chunkBoundaries data chunkSize).length - 1)).map
            (fun i => parse_structured_chunk cap data
              ((chunkBoundaries data chunkSize).getD i 0)
              ((chunkBoundaries data chunkSize).getD (i + 1) 0) fmt hdr)).map
            (fun b => b.fields.length)).sum,
        format := fmt } := by
  rw [parse_format_mmap, if_neg h0]
  simp only
  split_ifs with hcase
  · rfl
  · rw [mmapAssemble_eq_map _ _ _ (worker_threads_pos nt
      ((chunkBoundaries data chunkSize).length - 1))]

theorem parse_format_mmap_worker_invariant (cap : SimdCap) (data : List Nat)
    (w1 w2 chunkSize : Nat) (fmt : LogFormat) (hdr : Option CsvHeader) :
    parse_format_mmap cap data w1 chunkSize fmt hdr =
      parse_format_mmap cap data w2 chunkSize fmt hdr := by
  by_cases h0 : data.length = 0
  · rw [parse_format_mmap, if_pos h0, parse_format_mmap, if_pos h0]
  · rw [parse_format_mmap_canonical cap data w1 chunkSize fmt hdr h0,
      parse_format_mmap_canonical cap data w2 chunkSize fmt hdr h0]

theorem parse_structured_mmap_worker_invariant (cap : SimdCap)
    (data : List Nat) (w1 w2 chunkSize : Nat) (hint : Option LogFormat) :
    parse_structured_mmap cap data w1 chunkSize hint =
      parse_structured_mmap cap data w2 chunkSize hint := by
  by_cases h0 : data.length = 0
  · rw [parse_structured_mmap, if_pos h0, parse_structured_mmap, if_pos h0]
  · rw [parse_structured_mmap, if_neg h0, parse_structured_mmap, if_neg h0]
    cases hint.getD (LogFormat.detect data) with
    | Json =>
        show parse_json_mmap cap data w1 chunkSize =
          parse_json_mmap cap data w2 chunkSize
        exact parse_format_mmap_worker_invariant cap data w1 w2 chunkSize
          LogFormat.Json none
    | Logfmt =>
        show parse_logfmt_mmap cap data w1 chunkSize =
          parse_logfmt_mmap cap data w2 chunkSize
        exact parse_format_mmap_worker_invariant cap data w1 w2 chunkSize
          LogFormat.Logfmt none
    | PlainText =>
        show parse_logfmt_mmap cap data w1 chunkSize =
          parse_logfmt_mmap cap data w2 chunkSize
        exact parse_format_mmap_worker_invariant cap data w1 w2 chunkSize
          LogFormat.Logfmt none
    | Csv =>
        show parse_csv_mmap cap data w1 chunkSize =
          parse_csv_mmap cap data w2 chunkSize
        simp only [parse_csv_mmap]
        split_ifs with hds
        · rfl
        · rw [parse_format_mmap_worker_invariant cap
            (data.drop (header_end_offset data)) w1 w2 chunkSize
            LogFormat.Csv (CsvHeader.parse data)]

/-- C3: for every buffer, chunk size and pair of requested worker counts,
`parse_logs_pipelined`, `parse_format_mmap` and `parse_structured_mmap`
return identical results — chunk boundaries depend only on the buffer and
chunk size, chunks are partitioned contiguously among workers
(`assignmentsFor`), and batches are reassembled in chunk-index order
(`mmapAssemble`), so the final record sequences are byte-identical. -/
theorem worker_count_independence (cap : SimdCap) (data : List Nat)
    (w1 w2 chunkSize : Nat) (fmt : LogFormat) (hdr : Option CsvHeader)
    (hint : Option LogFormat) :
    parse_logs_pipelined cap data w1 chunkSize =
      parse_logs_pipelined cap data w2 chunkSize ∧
    parse_format_mmap cap data w1 chunkSize fmt hdr =
      parse_format_mmap cap data w2 chunkSize fmt hdr ∧
    parse_structured_mmap cap data w1 chunkSize hint =
      parse_structured_mmap cap data w2 chunkSize hint := by
  refine ⟨?_, parse_format_mmap_worker_invariant cap data w1 w2 chunkSize
    fmt hdr,
    parse_structured_mmap_worker_invariant cap data w1 w2 chunkSize hint⟩
  by_cases h0 : data.length = 0
  · rw [parse_logs_pipelined, if_pos h0, parse_logs_pipelined, if_pos h0]
  · rw [parse_logs_pipelined_canonical cap data w1 chunkSize h0,
      parse_logs_pipelined_canonical cap data w2 chunkSize h0]


/-! ### Record counting (claim C2) -/

theorem findByteFrom_some_bounds (t : Nat) (line : List Nat) (start j : Nat)
    (h : findByteFrom t line start = some j) :
    start ≤ j ∧ j < line.length := by
  rw [findByteFrom] at h
  cases hf : (line.drop start).findIdx? (fun b => b == t) with
  | none => rw [hf] at h; cases h
  | some k =>
      rw [hf] at h
      simp only [Option.map_some', Option.some.injEq] at h
      have hk : k < (line.drop start).length :=
        (List.findIdx?_eq_some_iff_findIdx_eq.mp hf).1
      rw [List.length_drop] at hk
      omega

theorem boundariesLoop_mem (data : List Nat) (cs : Nat) :
    ∀ fuel pos, ∀ b ∈ boundariesLoop data cs fuel pos,
      pos < b ∧ b ≤ data.length := by
  intro fuel
  induction fuel with
  | zero => intro pos b hb; exact absurd hb (List.not_mem_nil b)
  | succ fuel ih =>
      intro pos b hb
      rw [boundariesLoop] at hb
      split_ifs at hb with hpos
      · cases hj : findByteFrom 10 data pos with
        | none => rw [hj] at hb; simp at hb
        | some j =>
            rw [hj] at hb
            obtain ⟨hj1, hj2⟩ := findByteFrom_some_bounds 10 data pos j hj
            rcases List.mem_cons.mp hb with rfl | hb2
            · omega
            · have := ih (j + 1 + cs) b hb2
              omega
      · simp at hb

theorem boundariesLoop_sorted (data : List Nat) (cs : Nat) :
    ∀ fuel pos, List.Sorted (· < ·) (boundariesLoop data cs fuel pos) := by
  intro fuel
  induction fuel with
  | zero => intro pos; exact List.sorted_nil
  | succ fuel ih =>
      intro pos
      rw [boundariesLoop]
      split_ifs with hpos
      · cases hj : findByteFrom 10 data pos with
        | none => simp
        | some j =>
            rw [List.sorted_cons]
            refine ⟨fun b hb => ?_, ih (j + 1 + cs)⟩
            have := boundariesLoop_mem data cs fuel (j + 1 + cs) b hb
            omega
      · simp

theorem slice_length (data : List Nat) (s e : Nat) (hs : s ≤ e)
    (he : e ≤ data.length) : (slice data s e).length = e - s := by
  rw [slice, List.length_take, List.length_drop]
  omega

theorem slice_append_drop (data : List Nat) (s e : Nat) (hs : s ≤ e) :
    slice data s e ++ data.drop e = data.drop s := by
  rw [slice]
  have h1 : data.drop e = (data.drop s).drop (e - s) := by
    rw [List.drop_drop]
    congr 1
    omega
  rw [h1, List.take_append_drop]

theorem drop_count_split (data : List Nat) (s e total : Nat) (hs : s ≤ e)
    (he : e ≤ data.length) :
    (nlStartsFrom (data.drop s) s total).length =
      (nlStartsFrom (slice data s e) s total).length +
        (nlStartsFrom (data.drop e) e total).length := by
  have h := nlStartsFrom_append (slice data s e) (data.drop e) s total
  rw [slice_append_drop data s e hs] at h
  rw [h, List.length_append, slice_length data s e hs he]
  have h2 : s + (e - s) = e := by omega
  rw [h2]

theorem pairSum_telescope (data : List Nat) :
    ∀ (l : List Nat) (s : Nat), s ≤ data.length →
      (∀ b ∈ l, s ≤ b ∧ b ≤ data.length) →
      List.Sorted (· ≤ ·) l →
      pairSum (fun p q => (nlStartsFrom (slice data p q) p data.length).length)
          (s :: (l ++ [data.length])) =
        (nlStartsFrom (data.drop s) s data.length).length := by
  intro l
  induction l with
  | nil =>
      intro s hs _ _
      rw [List.nil_append, pairSum, pairSum]
      have : slice data s data.length = data.drop s := by
        rw [slice]
        apply List.take_of_length_le
        rw [List.length_drop]
      rw [this, Nat.add_zero]
  | cons b l' ih =>
      intro s hs hmem hsort
      obtain ⟨hb1, hb2⟩ := hmem b (List.mem_cons_self b l')
      rw [List.cons_append, pairSum]
      rw [ih b hb2 (fun x hx => ⟨(List.sorted_cons.mp hsort).1 x hx,
        (hmem x (List.mem_cons_of_mem b hx)).2⟩) (List.sorted_cons.mp hsort).2]
      rw [← drop_count_split data s b data.length hb1 hb2]

theorem pairSum_map_range (f : Nat → Nat → Nat) :
    ∀ (l : List Nat),
      ((List.range (l.length - 1)).map
        (fun i => f (l.getD i 0) (l.getD (i + 1) 0))).sum = pairSum f l := by
  intro l
  induction l with
  | nil => rfl
  | cons a rest ih =>
      cases rest with
      | nil => rfl
      | cons b rest2 =>
          rw [pairSum]
          have hlen : (a :: b :: rest2 : List Nat).length - 1 =
              ((b :: rest2 : List Nat).length - 1) + 1 := by
            simp
          rw [hlen, List.range_succ_eq_map, List.map_cons, List.sum_cons,
            List.map_map]
          have hmap : ((fun i => f ((a :: b :: rest2 : List Nat).getD i 0)
              ((a :: b :: rest2 : List Nat).getD (i + 1) 0)) ∘ Nat.succ) =
              (fun i => f ((b :: rest2 : List Nat).getD i 0)
                ((b :: rest2 : List Nat).getD (i + 1) 0)) := by
            funext i
            rfl
          rw [hmap, ih]
          rfl

theorem pairSum_add_one (f : Nat → Nat → Nat) :
    ∀ (l : List Nat),
      pairSum (fun p q => f p q + 1) l = pairSum f l + (l.length - 1) := by
  intro l
  induction l with
  | nil => rfl
  | cons a rest ih =>
      cases rest with
      | nil => rfl
      | cons b rest2 =>
          rw [pairSum, pairSum, ih]
          simp only [List.length_cons]
          omega

theorem parse_chunk_len_eq (cap : SimdCap) (data : List Nat) (s e : Nat) :
    (parse_chunk cap data s e).len =
      (nlStartsFrom (slice data s e) s data.length).length + 1 := by
  rw [parse_chunk]
  simp only [scan_region_eq, LogBatch.new]
  simp


theorem pairSum_congr (f g : Nat → Nat → Nat)
    (h : ∀ p q, f p q = g p q) :
    ∀ l : List Nat, pairSum f l = pairSum g l := by
  intro l
  induction l with
  | nil => rfl
  | cons a rest ih =>
      cases rest with
      | nil => rfl
      | cons b rest2 => rw [pairSum, pairSum, h, ih]

theorem pipelined_total_lines_general (cap : SimdCap) (data : List Nat)
    (numThreads chunkSize : Nat) :
    (parse_logs_pipelined cap data numThreads chunkSize).total_lines =
      (linesOf data).length +
        ((chunkBoundaries data chunkSize).length - 2) := by
  by_cases h0 : data.length = 0
  · have hd : data = [] := List.length_eq_zero.mp h0
    subst hd
    rw [parse_logs_pipelined]
    rfl
  · rw [parse_logs_pipelined_canonical cap data numThreads chunkSize h0]
    simp only
    rw [List.map_map]
    have hfun : (LogBatch.len ∘ fun i => parse_chunk cap data
        ((chunkBoundaries data chunkSize).getD i 0)
        ((chunkBoundaries data chunkSize).getD (i + 1) 0)) =
        (fun i => (fun p q => (parse_chunk cap data p q).len)
          ((chunkBoundaries data chunkSize).getD i 0)
          ((chunkBoundaries data chunkSize).getD (i + 1) 0)) := rfl
    rw [hfun, pairSum_map_range (fun p q => (parse_chunk cap data p q).len)
      (chunkBoundaries data chunkSize)]
    rw [pairSum_congr (fun p q => (parse_chunk cap data p q).len)
      (fun p q => (nlStartsFrom (slice data p q) p data.length).length + 1)
      (fun p q => parse_chunk_len_eq cap data p q)
      (chunkBoundaries data chunkSize)]
    rw [pairSum_add_one]
    have hB : chunkBoundaries data chunkSize =
        0 :: (boundariesLoop data chunkSize (data.length + 1) chunkSize ++
          [data.length]) := by
      rw [chunkBoundaries, List.cons_append]
    rw [hB]
    rw [pairSum_telescope data
      (boundariesLoop data chunkSize (data.length + 1) chunkSize) 0
      (Nat.zero_le _)
      (fun b hb => ⟨Nat.zero_le b,
        (boundariesLoop_mem data chunkSize (data.length + 1) chunkSize b
          hb).2⟩)
      ((boundariesLoop_sorted data chunkSize (data.length + 1)
        chunkSize).imp le_of_lt)]
    rw [List.drop_zero]
    have hlines := nlStartsFrom_length_linesOf data
      (fun hc => h0 (by rw [hc]; rfl)) 0
    rw [Nat.zero_add] at hlines
    simp only [List.length_cons, List.length_append,
      List.length_singleton]
    omega


theorem push_field_len (b : StructuredBatch) (f : FieldRef) :
    (b.push_field f).len = b.len := rfl

theorem classify_and_set_len (k : List Nat) (i : Nat)
    (b : StructuredBatch) : (classify_and_set k i b).len = b.len := by
  rw [classify_and_set]
  cases classify_key k <;> rfl

theorem end_record_len (b : StructuredBatch) : b.end_record.len = b.len :=
  rfl

theorem begin_record_len (b : StructuredBatch) (off l : Nat) :
    (b.begin_record off l).len = b.len + 1 := rfl

theorem logfmtLoop_len (line : List Nat) (base : Nat) :
    ∀ fuel i b, (logfmtLoop line base fuel i b).len = b.len := by
  intro fuel
  induction fuel with
  | zero => intro i b; rfl
  | succ fuel ih =>
      intro i b
      rw [logfmtLoop]
      dsimp only
      split
      · split
        · rw [ih, classify_and_set_len, push_field_len]
        · rw [ih]
          split
          · rw [classify_and_set_len, push_field_len]
          · rfl
      · rfl

theorem parse_logfmt_line_len (line : List Nat) (base : Nat)
    (b : StructuredBatch) :
    (parse_logfmt_line line base b).len =
      b.len + (if line.length = 0 then 0 else 1) := by
  rw [parse_logfmt_line]
  split_ifs with h
  · rfl
  · rw [end_record_len, logfmtLoop_len, begin_record_len]

theorem csvLineLoop_len (line : List Nat) (base : Nat)
    (header : CsvHeader) :
    ∀ fuel i col b, (csvLineLoop line base header fuel i col b).len =
      b.len := by
  intro fuel
  induction fuel with
  | zero => intro i col b; rfl
  | succ fuel ih =>
      intro i col b
      rw [csvLineLoop]
      dsimp only
      split
      · rw [ih]
        cases header.well_known.getD col WellKnownKind.Other <;> rfl
      · rfl

theorem parse_csv_line_len (line : List Nat) (base : Nat)
    (header : CsvHeader) (b : StructuredBatch) :
    (parse_csv_line line base header b).len =
      b.len + (if line.length = 0 then 0 else 1) := by
  rw [parse_csv_line]
  split_ifs with h
  · rfl
  · rw [end_record_len, csvLineLoop_len, begin_record_len]

theorem jsonLoop_len (line : List Nat) (base : Nat) :
    ∀ fuel i b, (jsonLoop line base fuel i b).len = b.len := by
  intro fuel
  induction fuel with
  | zero => intro i b; rfl
  | succ fuel ih =>
      intro i b
      rw [jsonLoop]
      dsimp only
      split
      · rfl
      · split
        · rw [ih]
        · split
          · rw [ih]
          · rw [ih, classify_and_set_len, push_field_len]


theorem skipWhileF_lt_iff (p : Nat → Bool) (line : List Nat) :
    ∀ fuel i, line.length ≤ i + fuel →
      (skipWhileF p line fuel i < line.length ↔
        ∃ j, i ≤ j ∧ j < line.length ∧ p (line.getD j 0) = false) := by
  intro fuel
  induction fuel with
  | zero =>
      intro i hle
      rw [skipWhileF]
      constructor
      · intro h; omega
      · rintro ⟨j, hj1, hj2, _⟩; omega
  | succ fuel ih =>
      intro i hle
      rw [skipWhileF]
      split_ifs with h1 h2
      · rw [ih (i + 1) (by omega)]
        constructor
        · rintro ⟨j, hj1, hj2, hj3⟩; exact ⟨j, by omega, hj2, hj3⟩
        · rintro ⟨j, hj1, hj2, hj3⟩
          refine ⟨j, ?_, hj2, hj3⟩
          have hne : i ≠ j := by
            intro he
            rw [← he, h2] at hj3
            exact absurd hj3 (by decide)
          omega
      · constructor
        · intro _
          exact ⟨i, le_refl i, h1, by simpa using h2⟩
        · intro _; exact h1
      · constructor
        · intro h; omega
        · rintro ⟨j, hj1, hj2, _⟩; omega

theorem skipWhile_lt_iff_mem (t : Nat) (line : List Nat) :
    skipWhile (fun b => b != t) line 0 < line.length ↔ t ∈ line := by
  rw [skipWhile,
    skipWhileF_lt_iff (fun b => b != t) line (line.length + 1) 0 (by omega)]
  constructor
  · rintro ⟨j, _, hj2, hj3⟩
    have hjt : line.getD j 0 = t := by
      simpa [bne] using hj3
    rw [List.getD_eq_getElem line 0 hj2] at hjt
    exact hjt ▸ List.getElem_mem hj2
  · intro ht
    obtain ⟨j, hj, he⟩ := List.mem_iff_getElem.mp ht
    refine ⟨j, Nat.zero_le j, hj, ?_⟩
    have hgd : line.getD j 0 = t := by
      rw [List.getD_eq_getElem line 0 hj]
      exact he
    rw [hgd]
    simp

theorem parse_json_line_len (line : List Nat) (base : Nat)
    (b : StructuredBatch) :
    (parse_json_line line base b).len =
      b.len + (if 2 ≤ line.length ∧ 123 ∈ line then 1 else 0) := by
  rw [parse_json_line]
  dsimp only
  by_cases h1 : line.length < 2
  · rw [if_pos h1, if_neg (fun hc => absurd hc.1 (by omega))]
    rfl
  · rw [if_neg h1]
    by_cases h2 : skipWhile (fun b => b != 123) line 0 ≥ line.length
    · rw [if_pos h2]
      have hmem : ¬ 123 ∈ line := by
        rw [← skipWhile_lt_iff_mem 123 line]
        omega
      rw [if_neg (fun hc => hmem hc.2)]
      rfl
    · rw [if_neg h2, end_record_len, jsonLoop_len, begin_record_len,
        if_pos ⟨by omega, (skipWhile_lt_iff_mem 123 line).mp (by omega)⟩]


theorem slice_eq_nil_iff (data : List Nat) (lo hi : Nat) :
    slice data lo hi = [] ↔ data.length ≤ lo ∨ hi ≤ lo := by
  rw [slice]
  constructor
  · intro h
    by_contra hc
    push_neg at hc
    have h1 : ((data.drop lo).take (hi - lo)).length = 0 := by rw [h]; rfl
    rw [List.length_take, List.length_drop] at h1
    omega
  · intro h
    rcases h with h | h
    · rw [List.drop_eq_nil_of_le h, List.take_nil]
    · have h2 : hi - lo = 0 := by omega
      rw [h2, List.take_zero]

theorem countP_eq_sum_if {α : Type} (p : α → Bool) :
    ∀ l : List α,
      l.countP p = (l.map (fun a => if p a = true then 1 else 0)).sum := by
  intro l
  induction l with
  | nil => rfl
  | cons a rest ih =>
      rw [List.countP_cons, List.map_cons, List.sum_cons, ih]
      omega

theorem foldl_len_add {α : Type} (step : StructuredBatch → α → StructuredBatch)
    (g : α → Nat) (hstep : ∀ b a, (step b a).len = b.len + g a) :
    ∀ (l : List α) (b : StructuredBatch),
      (l.foldl step b).len = b.len + (l.map g).sum := by
  intro l
  induction l with
  | nil => intro b; simp
  | cons a rest ih =>
      intro b
      rw [List.foldl_cons, ih, hstep, List.map_cons, List.sum_cons]
      omega

theorem parse_logfmt_lines_range_len (data lineStarts : List Nat)
    (startIdx endIdx : Nat) (b : StructuredBatch) :
    (parse_logfmt_lines_range data lineStarts startIdx endIdx b).len =
      b.len + (List.range' startIdx (endIdx - startIdx)).countP
        (fun i =>
          decide (slice data (lineStarts.getD i 0)
              (if i + 1 < lineStarts.length then
                lineEndCRLF data (lineStarts.getD (i + 1) 0)
              else data.length) ≠ [] ∧
            (slice data (lineStarts.getD i 0)
              (if i + 1 < lineStarts.length then
                lineEndCRLF data (lineStarts.getD (i + 1) 0)
              else data.length)).all
              (fun c => c == 32 || c == 9) = false)) := by
  rw [parse_logfmt_lines_range, countP_eq_sum_if]
  refine foldl_len_add _ _ ?_ _ b
  intro bb i
  dsimp only
  simp only [decide_eq_true_eq]
  by_cases hA : lineStarts.getD i 0 ≥ data.length ∨
      lineStarts.getD i 0 ≥ (if i + 1 < lineStarts.length then
        lineEndCRLF data (lineStarts.getD (i + 1) 0) else data.length)
  · rw [if_pos hA]
    have hnil : slice data (lineStarts.getD i 0)
        (if i + 1 < lineStarts.length then
          lineEndCRLF data (lineStarts.getD (i + 1) 0) else data.length) =
        [] := (slice_eq_nil_iff data _ _).mpr hA
    rw [if_neg (fun hc => hc.1 hnil)]
    rfl
  · rw [if_neg hA]
    by_cases hB : (slice data (lineStarts.getD i 0)
        (if i + 1 < lineStarts.length then
          lineEndCRLF data (lineStarts.getD (i + 1) 0) else data.length)).all
        (fun c => c == 32 || c == 9) = true
    · rw [if_pos hB,
        if_neg (fun hc => by
          have h2 := hc.2
          rw [hB] at h2
          exact absurd h2 (by decide))]
      rfl
    · have hB' : (slice data (lineStarts.getD i 0)
          (if i + 1 < lineStarts.length then
            lineEndCRLF data (lineStarts.getD (i + 1) 0)
          else data.length)).all (fun c => c == 32 || c == 9) = false := by
        cases hval : (slice data (lineStarts.getD i 0)
            (if i + 1 < lineStarts.length then
              lineEndCRLF data (lineStarts.getD (i + 1) 0)
            else data.length)).all (fun c => c == 32 || c == 9) with
        | false => rfl
        | true => exact absurd hval hB
      have hne : slice data (lineStarts.getD i 0)
          (if i + 1 < lineStarts.length then
            lineEndCRLF data (lineStarts.getD (i + 1) 0)
          else data.length) ≠ [] := by
        rw [Ne, slice_eq_nil_iff]
        push_neg at hA ⊢
        exact hA
      rw [if_neg hB, parse_logfmt_line_len,
        if_neg (fun hc => hne (List.length_eq_zero.mp hc)),
        if_pos ⟨hne, hB'⟩]


theorem parse_json_lines_range_len (data lineStarts : List Nat)
    (startIdx endIdx : Nat) (b : StructuredBatch) :
    (parse_json_lines_range data lineStarts startIdx endIdx b).len =
      b.len + (List.range' startIdx (endIdx - startIdx)).countP
        (fun i =>
          decide ((slice data (lineStarts.getD i 0) (if i + 1 < lineStarts.length then lineEndCRLF data (lineStarts.getD (i + 1) 0) else data.length)).all
              (fun c => is_json_whitespace c) = false ∧
            2 ≤ (slice data (lineStarts.getD i 0) (if i + 1 < lineStarts.length then lineEndCRLF data (lineStarts.getD (i + 1) 0) else data.length)).length ∧
            123 ∈ slice data (lineStarts.getD i 0) (if i + 1 < lineStarts.length then lineEndCRLF data (lineStarts.getD (i + 1) 0) else data.length))) := by
  rw [parse_json_lines_range, countP_eq_sum_if]
  refine foldl_len_add _ _ ?_ _ b
  intro bb i
  dsimp only
  simp only [decide_eq_true_eq]
  by_cases hA : lineStarts.getD i 0 ≥ data.length ∨
      lineStarts.getD i 0 ≥ (if i + 1 < lineStarts.length then lineEndCRLF data (lineStarts.getD (i + 1) 0) else data.length)
  · rw [if_pos hA]
    have hnil : slice data (lineStarts.getD i 0) (if i + 1 < lineStarts.length then lineEndCRLF data (lineStarts.getD (i + 1) 0) else data.length) = [] := (slice_eq_nil_iff data _ _).mpr hA
    rw [if_neg (fun hc => by
      rw [hnil] at hc
      exact absurd hc.1 (by decide))]
    rfl
  · rw [if_neg hA]
    by_cases hB : (slice data (lineStarts.getD i 0) (if i + 1 < lineStarts.length then lineEndCRLF data (lineStarts.getD (i + 1) 0) else data.length)).all (fun c => is_json_whitespace c) = true
    · rw [if_pos hB,
        if_neg (fun hc => by
          have h1 := hc.1
          rw [hB] at h1
          exact absurd h1 (by decide))]
      rfl
    · have hB2 : (slice data (lineStarts.getD i 0) (if i + 1 < lineStarts.length then lineEndCRLF data (lineStarts.getD (i + 1) 0) else data.length)).all (fun c => is_json_whitespace c) = false := by
        cases hval : (slice data (lineStarts.getD i 0) (if i + 1 < lineStarts.length then lineEndCRLF data (lineStarts.getD (i + 1) 0) else data.length)).all (fun c => is_json_whitespace c) with
        | false => rfl
        | true => exact absurd hval hB
      rw [if_neg hB, parse_json_line_len]
      have hiff : (2 ≤ (slice data (lineStarts.getD i 0) (if i + 1 < lineStarts.length then lineEndCRLF data (lineStarts.getD (i + 1) 0) else data.length)).length ∧ 123 ∈ slice data (lineStarts.getD i 0) (if i + 1 < lineStarts.length then lineEndCRLF data (lineStarts.getD (i + 1) 0) else data.length)) ↔
          ((slice data (lineStarts.getD i 0) (if i + 1 < lineStarts.length then lineEndCRLF data (lineStarts.getD (i + 1) 0) else data.length)).all (fun c => is_json_whitespace c) = false ∧
            2 ≤ (slice data (lineStarts.getD i 0) (if i + 1 < lineStarts.length then lineEndCRLF data (lineStarts.getD (i + 1) 0) else data.length)).length ∧ 123 ∈ slice data (lineStarts.getD i 0) (if i + 1 < lineStarts.length then lineEndCRLF data (lineStarts.getD (i + 1) 0) else data.length)) :=
        ⟨fun hc => ⟨hB2, hc⟩, fun hc => hc.2⟩
      rw [if_congr hiff rfl rfl]

theorem parse_csv_lines_range_len (data lineStarts : List Nat)
    (startIdx endIdx : Nat) (header : CsvHeader) (b : StructuredBatch) :
    (parse_csv_lines_range data lineStarts startIdx endIdx header b).len =
      b.len + (List.range' startIdx (endIdx - startIdx)).countP
        (fun i => decide (slice data (lineStarts.getD i 0) (if i + 1 < lineStarts.length then lineEndCRLF data (lineStarts.getD (i + 1) 0) else (if 0 < (if 0 < data.length ∧ data.getD (data.length - 1) 0 = 10 then data.length - 1 else data.length) ∧ data.getD ((if 0 < data.length ∧ data.getD (data.length - 1) 0 = 10 then data.length - 1 else data.length) - 1) 0 = 13 then (if 0 < data.length ∧ data.getD (data.length - 1) 0 = 10 then data.length - 1 else data.length) - 1 else (if 0 < data.length ∧ data.getD (data.length - 1) 0 = 10 then data.length - 1 else data.length))) ≠ [])) := by
  rw [parse_csv_lines_range, countP_eq_sum_if]
  refine foldl_len_add _ _ ?_ _ b
  intro bb i
  dsimp only
  simp only [decide_eq_true_eq]
  by_cases hA : lineStarts.getD i 0 ≥ data.length ∨
      lineStarts.getD i 0 ≥ (if i + 1 < lineStarts.length then lineEndCRLF data (lineStarts.getD (i + 1) 0) else (if 0 < (if 0 < data.length ∧ data.getD (data.length - 1) 0 = 10 then data.length - 1 else data.length) ∧ data.getD ((if 0 < data.length ∧ data.getD (data.length - 1) 0 = 10 then data.length - 1 else data.length) - 1) 0 = 13 then (if 0 < data.length ∧ data.getD (data.length - 1) 0 = 10 then data.length - 1 else data.length) - 1 else (if 0 < data.length ∧ data.getD (data.length - 1) 0 = 10 then data.length - 1 else data.length)))
  · rw [if_pos hA]
    have hnil : slice data (lineStarts.getD i 0) (if i + 1 < lineStarts.length then lineEndCRLF data (lineStarts.getD (i + 1) 0) else (if 0 < (if 0 < data.length ∧ data.getD (data.length - 1) 0 = 10 then data.length - 1 else data.length) ∧ data.getD ((if 0 < data.length ∧ data.getD (data.length - 1) 0 = 10 then data.length - 1 else data.length) - 1) 0 = 13 then (if 0 < data.length ∧ data.getD (data.length - 1) 0 = 10 then data.length - 1 else data.length) - 1 else (if 0 < data.length ∧ data.getD (data.length - 1) 0 = 10 then data.length - 1 else data.length))) = [] := (slice_eq_nil_iff data _ _).mpr hA
    rw [if_neg (fun hc => hc hnil)]
    rfl
  · have hne : slice data (lineStarts.getD i 0) (if i + 1 < lineStarts.length then lineEndCRLF data (lineStarts.getD (i + 1) 0) else (if 0 < (if 0 < data.length ∧ data.getD (data.length - 1) 0 = 10 then data.length - 1 else data.length) ∧ data.getD ((if 0 < data.length ∧ data.getD (data.length - 1) 0 = 10 then data.length - 1 else data.length) - 1) 0 = 13 then (if 0 < data.length ∧ data.getD (data.length - 1) 0 = 10 then data.length - 1 else data.length) - 1 else (if 0 < data.length ∧ data.getD (data.length - 1) 0 = 10 then data.length - 1 else data.length))) ≠ [] := by
      rw [Ne, slice_eq_nil_iff]
      push_neg at hA ⊢
      exact hA
    rw [if_neg hA, parse_csv_line_len,
      if_neg (fun hc => hne (List.length_eq_zero.mp hc)),
      if_pos hne]


/-! ### Claim theorems C2 -/

/-- C2 counterexample: the claimed equality with the number of non-empty
lines fails in every mode.  On `a\n\nb\n` the plain orchestrator reports
`total_lines = 3` though only 2 lines are non-empty; with a 2-byte chunk
size `a\nb\nc\n` reports 4 though the buffer has only 3 lines (each
interior chunk boundary contributes one extra empty slot); the non-empty
whitespace-only line of ` \n` yields no logfmt record; the non-empty line
of `x\n` yields no JSON record; and of the two non-empty lines of
`a,b,c\nx,y,z\n` the CSV path produces a record only for the body line,
the header line being consumed by `CsvHeader.parse`. -/
theorem record_count_counterexamples :
    ((parse_logs_pipelined SimdCap.scalar [97, 10, 10, 98, 10] 1
        64).total_lines = 3 ∧
      ((linesOf [97, 10, 10, 98, 10]).filter
        (fun l => !l.isEmpty)).length = 2) ∧
    ((parse_logs_pipelined SimdCap.scalar [97, 10, 98, 10, 99, 10] 1
        2).total_lines = 4 ∧
      (linesOf [97, 10, 98, 10, 99, 10]).length = 3 ∧
      ((linesOf [97, 10, 98, 10, 99, 10]).filter
        (fun l => !l.isEmpty)).length = 3) ∧
    ((parse_structured_mmap SimdCap.scalar [32, 10] 1 64
        (some LogFormat.Logfmt)).total_records = 0 ∧
      ((linesOf [32, 10]).filter (fun l => !l.isEmpty)).length = 1) ∧
    ((parse_structured_mmap SimdCap.scalar [120, 10] 1 64
        (some LogFormat.Json)).total_records = 0 ∧
      ((linesOf [120, 10]).filter (fun l => !l.isEmpty)).length = 1) ∧
    ((parse_structured_mmap SimdCap.scalar
        [97, 44, 98, 44, 99, 10, 120, 44, 121, 44, 122, 10] 1 64
        (some LogFormat.Csv)).total_records = 1 ∧
      ((linesOf [97, 44, 98, 44, 99, 10, 120, 44, 121, 44, 122, 10]).filter
        (fun l => !l.isEmpty)).length = 2) := by
  decide

/-- C2 (amended): record counts are per-parser, not one per non-empty
line.  (i) The plain-text orchestrator's `total_lines` counts scanner line
slots: for EVERY buffer and chunk size it equals the total number of lines
(empty lines included, a final unterminated line counted, a trailing
newline opening no extra line) plus one extra empty slot per non-final
chunk.  (ii) The logfmt range parser (also used for PlainText) adds one
record per line slot whose CRLF-stripped line is non-empty and not made
only of spaces and tabs.  (iii) The JSON range parser adds one record per
slot whose line is not all JSON whitespace, is at least two bytes long and
contains a `\x7b` byte.  (iv) The CSV range parser adds one record per
slot with a non-empty line (`parse_csv_mmap` runs it on the header-stripped
body).  (v) Per line, `parse_logfmt_line` and `parse_csv_line` produce
exactly one record for every non-empty line — even one yielding zero
fields — and none for an empty line, while `parse_json_line` requires
length ≥ 2 and a `\x7b`. -/
theorem record_counting_characterization :
    (∀ (cap : SimdCap) (data : List Nat) (numThreads chunkSize : Nat),
        (parse_logs_pipelined cap data numThreads chunkSize).total_lines =
          (linesOf data).length +
            ((chunkBoundaries data chunkSize).length - 2)) ∧
    (∀ (data lineStarts : List Nat) (startIdx endIdx : Nat)
        (b : StructuredBatch),
        (parse_logfmt_lines_range data lineStarts startIdx endIdx b).len =
          b.len + (List.range' startIdx (endIdx - startIdx)).countP
            (fun i =>
              decide (slice data (lineStarts.getD i 0) (if i + 1 < lineStarts.length then lineEndCRLF data (lineStarts.getD (i + 1) 0) else data.length) ≠ [] ∧
                (slice data (lineStarts.getD i 0) (if i + 1 < lineStarts.length then lineEndCRLF data (lineStarts.getD (i + 1) 0) else data.length)).all
                  (fun c => c == 32 || c == 9) = false))) ∧
    (∀ (data lineStarts : List Nat) (startIdx endIdx : Nat)
        (b : StructuredBatch),
        (parse_json_lines_range data lineStarts startIdx endIdx b).len =
          b.len + (List.range' startIdx (endIdx - startIdx)).countP
            (fun i =>
              decide ((slice data (lineStarts.getD i 0) (if i + 1 < lineStarts.length then lineEndCRLF data (lineStarts.getD (i + 1) 0) else data.length)).all
                  (fun c => is_json_whitespace c) = false ∧
                2 ≤ (slice data (lineStarts.getD i 0) (if i + 1 < lineStarts.length then lineEndCRLF data (lineStarts.getD (i + 1) 0) else data.length)).length ∧
                123 ∈ slice data (lineStarts.getD i 0) (if i + 1 < lineStarts.length then lineEndCRLF data (lineStarts.getD (i + 1) 0) else data.length)))) ∧
    (∀ (data lineStarts : List Nat) (startIdx endIdx : Nat)
        (header : CsvHeader) (b : StructuredBatch),
        (parse_csv_lines_range data lineStarts startIdx endIdx header
            b).len =
          b.len + (List.range' startIdx (endIdx - startIdx)).countP
            (fun i => decide (slice data (lineStarts.getD i 0) (if i + 1 < lineStarts.length then lineEndCRLF data (lineStarts.getD (i + 1) 0) else (if 0 < (if 0 < data.length ∧ data.getD (data.length - 1) 0 = 10 then data.length - 1 else data.length) ∧ data.getD ((if 0 < data.length ∧ data.getD (data.length - 1) 0 = 10 then data.length - 1 else data.length) - 1) 0 = 13 then (if 0 < data.length ∧ data.getD (data.length - 1) 0 = 10 then data.length - 1 else data.length) - 1 else (if 0 < data.length ∧ data.getD (data.length - 1) 0 = 10 then data.length - 1 else data.length))) ≠ []))) ∧
    (∀ (line : List Nat) (base : Nat) (b : StructuredBatch),
        (parse_logfmt_line line base b).len =
          b.len + (if line.length = 0 then 0 else 1)) ∧
    (∀ (line : List Nat) (base : Nat) (header : CsvHeader)
        (b : StructuredBatch),
        (parse_csv_line line base header b).len =
          b.len + (if line.length = 0 then 0 else 1)) ∧
    (∀ (line : List Nat) (base : Nat) (b : StructuredBatch),
        (parse_json_line line base b).len =
          b.len + (if 2 ≤ line.length ∧ 123 ∈ line then 1 else 0)) :=
  ⟨pipelined_total_lines_general, parse_logfmt_lines_range_len,
    parse_json_lines_range_len, parse_csv_lines_range_len,
    parse_logfmt_line_len, parse_csv_line_len, parse_json_line_len⟩

end Pandora
